import Mathlib

/-!
Shallow embedding of the `ai-orchestrator` TypeScript package
(`src/index.ts`, `src/adapters/custom.ts`) and proofs about it.

Conventions of the embedding:
* JavaScript numbers are modelled as `ℚ` (the code only compares and
  subtracts them; no claim depends on floating-point rounding).
* JavaScript's `Map` is modelled as an association list with
  insert-or-replace `set`, first-match `get` and key-dropping `delete`
  (JS `Map` keeps at most one entry per key).
* A JS value that may be `undefined` is an `Option`; JS truthiness of an
  optional string (`if (s)`) is `truthyOpt` (`none` and `""` are falsy).
* An `async` function that may reject is a function into `Except String`,
  the error being the thrown message; `try { … } catch { … }` is a `match`
  on that `Except`.
-/

namespace AIOrch

/-- JS truthiness of an optional string: `undefined` and `""` are falsy. -/
def truthyOpt : Option String → Bool
  | some s => !s.isEmpty
  | none => false

/-- JS `a || b` over optional strings (`a` wins unless it is falsy). -/
def orFalsy (a b : Option String) : Option String :=
  match a with
  | some s => if s.isEmpty then b else some s
  | none => b

/-! ## Data model (`src/types.ts` interfaces as used by `src/index.ts`) -/

/-- `ModelConfig.type`: the closed set of content types. -/
inductive CType where
  | text
  | image
  | audio
  | video
deriving DecidableEq, Repr

/-- `ModelConfig.quality`: the quality tiers. -/
inductive Quality where
  | low
  | medium
  | high
deriving DecidableEq, Repr

/-- `GenerateRequest.strategy`: the ranking strategies. -/
inductive Strategy where
  | cost
  | latency
  | quality
deriving DecidableEq, Repr

/-- `GenerateResult.status` / `JobStatusResult.status`. -/
inductive Status where
  | completed
  | pending
  | failed
deriving DecidableEq, Repr

/-- `ModelConfig` (with the per-model template/extractor overrides used by
`CustomAdapter`). -/
structure ModelConfig where
  id : String
  type : CType
  cost : ℚ
  quality : Quality
  avg_latency_ms : Option ℚ := none
  requestBodyTemplate : Option String := none
  responseExtractor : Option String := none
deriving DecidableEq, Repr

/-- `ProviderConfig` (the fields read by `AIOrchestrator` and `CustomAdapter`). -/
structure ProviderConfig where
  name : String
  apiKey : String
  models : List ModelConfig
  baseUrl : Option String := none
  healthCheckEndpoint : Option String := none
  authenticationHeader : Option String := none
  authenticationScheme : Option String := none
  requestBodyTemplate : Option String := none
  responseExtractor : Option String := none
deriving DecidableEq, Repr

/-- `OrchestratorConfig` (the `logger` is pure telemetry and is dropped). -/
structure OrchestratorConfig where
  providers : List ProviderConfig
deriving DecidableEq, Repr

/-- `GenerateRequest.params`. -/
structure GenParams where
  temperature : Option ℚ := none
  maxTokens : Option ℚ := none
  topP : Option ℚ := none
deriving DecidableEq, Repr

/-- `GenerateRequest`. -/
structure GenerateRequest where
  type : CType
  prompt : String
  strategy : Option Strategy := none
  quality : Option Quality := none
  systemPrompt : Option String := none
  params : Option GenParams := none
deriving DecidableEq, Repr

/-- `GenerateResult` as the orchestrator reads it (`status`,
`orchestratorJobId` and `error` are the fields it inspects). -/
structure GenerateResult where
  status : Status
  provider : String := ""
  model : String := ""
  data : Option String := none
  error : Option String := none
  orchestratorJobId : Option String := none
deriving DecidableEq, Repr

/-- `JobStatusResult`. -/
structure JobStatusResult where
  status : Status
  data : Option String := none
  error : Option String := none
deriving DecidableEq, Repr

/-! ## Candidate selection (`AIOrchestrator.getSortedProviders`,
`src/index.ts:118-132`) -/

/-- One element of the candidate list: a `{ provider, model }` pair. -/
structure Candidate where
  provider : ProviderConfig
  model : ModelConfig
deriving DecidableEq, Repr

/-- The filter stage of `getSortedProviders`: flat-map providers to
`(provider, model)` pairs, keep the request's content type, and apply the
optional exact quality filter. -/
def eligibleCandidates (cfg : OrchestratorConfig) (req : GenerateRequest) :
    List Candidate :=
  let base := (cfg.providers.flatMap fun p => p.models.map fun m => Candidate.mk p m).filter
    (fun c => c.model.type == req.type)
  match req.quality with
  | some q => base.filter (fun c => c.model.quality == q)
  | none => base

/-- The fixed rank of `getSortedProviders`' `qualityOrder` map:
`high = 1, medium = 2, low = 3`. -/
def qualityOrder : Quality → Nat
  | Quality.high => 1
  | Quality.medium => 2
  | Quality.low => 3

/-- `a.model.avg_latency_ms ?? Infinity`: an unknown latency compares as
`⊤`. (`Infinity - Infinity` is `NaN`, which `Array.prototype.sort` treats
as `+0`, i.e. a tie — exactly the order of `WithTop ℚ`.) -/
def latKey (o : Option ℚ) : WithTop ℚ :=
  match o with
  | some q => (q : WithTop ℚ)
  | none => ⊤

section StableSort

variable {α : Type} {κ : Type} [LinearOrder κ]

/-- `key a ≤ key b`: the ordering a JS numeric comparator
`(a, b) => f(a) - f(b)` induces. -/
def keyLe (key : α → κ) : α → α → Prop := fun a b => key a ≤ key b

instance (key : α → κ) : DecidableRel (keyLe key) :=
  fun a b => inferInstanceAs (Decidable (key a ≤ key b))

/-- `Array.prototype.sort` with a numeric comparator on `key` is (since
ES2019) exactly the stable sort by `key`; insertion sort with `keyLe` is
that stable sort. -/
def sortByKey (key : α → κ) (l : List α) : List α :=
  l.insertionSort (keyLe key)

theorem sortByKey_perm (key : α → κ) (l : List α) :
    List.Perm (sortByKey key l) l :=
  List.perm_insertionSort _ l

theorem sortByKey_sorted (key : α → κ) (l : List α) :
    (sortByKey key l).Sorted (keyLe key) := by
  haveI : IsTotal α (keyLe key) := ⟨fun a b => le_total (key a) (key b)⟩
  haveI : IsTrans α (keyLe key) := ⟨fun a b c => le_trans⟩
  exact List.sorted_insertionSort _ l

theorem filter_orderedInsert_key (key : α → κ) (x : α) (l : List α) (k : κ) :
    (List.orderedInsert (keyLe key) x l).filter (fun z => decide (key z = k)) =
      if key x = k then x :: l.filter (fun z => decide (key z = k))
      else l.filter (fun z => decide (key z = k)) := by
  induction l with
  | nil =>
    by_cases h : key x = k <;> simp [List.orderedInsert, List.filter, h]
  | cons y ys ih =>
    by_cases hxy : keyLe key x y
    · by_cases h : key x = k <;>
        simp [List.orderedInsert, hxy, List.filter, h]
    · have hyx : key y < key x := by
        simpa [keyLe] using lt_of_not_le hxy
      by_cases h : key x = k
      · have hy : ¬ (key y = k) := by
          intro hk
          exact absurd (hk.trans h.symm) (ne_of_lt hyx)
        simp [List.orderedInsert, hxy, List.filter, h, hy, ih]
      · by_cases hy : key y = k <;>
          simp [List.orderedInsert, hxy, List.filter, h, hy, ih]

/-- Stability of the sort, phrased per key value: the sublist of entries
whose key equals `k` is unchanged, i.e. ties keep their original relative
order. -/
theorem sortByKey_filter (key : α → κ) (l : List α) (k : κ) :
    (sortByKey key l).filter (fun z => decide (key z = k)) =
      l.filter (fun z => decide (key z = k)) := by
  induction l with
  | nil => rfl
  | cons x xs ih =>
    have h1 : sortByKey key (x :: xs) =
        List.orderedInsert (keyLe key) x (sortByKey key xs) := rfl
    rw [h1, filter_orderedInsert_key]
    by_cases h : key x = k
    · simp [h, ih, List.filter_cons]
    · simp [h, ih, List.filter_cons]

end StableSort

/-- `AIOrchestrator.getSortedProviders` (`src/index.ts:118-132`):
filter to eligible candidates, then sort by the chosen strategy
(`strategy = 'cost'` is the default). -/
def getSortedProviders (cfg : OrchestratorConfig) (req : GenerateRequest) :
    List Candidate :=
  let candidates := eligibleCandidates cfg req
  match req.strategy.getD Strategy.cost with
  | Strategy.latency => sortByKey (fun c => latKey c.model.avg_latency_ms) candidates
  | Strategy.quality => sortByKey (fun c => qualityOrder c.model.quality) candidates
  | Strategy.cost => sortByKey (fun c => c.model.cost) candidates

/-! ## JS values (for `CustomAdapter`'s response handling) -/

/-- A JavaScript/JSON value as the custom adapter manipulates it.
`undef` is JS `undefined` (a missed property lookup). Functions and other
exotic values are outside the modelled fragment (no claim touches them). -/
inductive JValue where
  | undef
  | null
  | bool (b : Bool)
  | num (q : ℚ)
  | str (s : String)
  | arr (elems : List JValue)
  | obj (fields : List (String × JValue))

/-- JS truthiness of a value (`NaN` is not representable in `ℚ`). -/
def JValue.falsy : JValue → Bool
  | JValue.undef => true
  | JValue.null => true
  | JValue.bool b => !b
  | JValue.num q => q == 0
  | JValue.str s => s.isEmpty
  | JValue.arr _ => false
  | JValue.obj _ => false

/-- The value of a list of decimal digit characters. -/
def digitsToNat (ds : List Char) : Nat :=
  ds.foldl (fun acc c => acc * 10 + (c.toNat - 48)) 0

/-- The canonical numeric string of an array index (JS `arr["01"]` is not
an element access, `arr["1"]` is): all digits, and re-printing the value
reproduces the string. -/
def canonicalIndex (s : String) : Option Nat :=
  match s.data with
  | [] => none
  | ds =>
    if ds.all Char.isDigit then
      if Nat.toDigits 10 (digitsToNat ds) = ds then some (digitsToNat ds) else none
    else none

/-- JS property access `v[k]` on the modelled values: object fields by
name, array elements by canonical index, string characters and `length`;
anything else (and any miss) is `undefined`. Prototype methods are outside
the modelled fragment. -/
def JValue.get : JValue → String → JValue
  | JValue.obj fields, k =>
    match fields.find? (fun f => f.1 == k) with
    | some f => f.2
    | none => JValue.undef
  | JValue.arr l, k =>
    if k == "length" then JValue.num (l.length : ℚ)
    else
      match canonicalIndex k with
      | some n => (l.get? n).getD JValue.undef
      | none => JValue.undef
  | JValue.str s, k =>
    if k == "length" then JValue.num (s.length : ℚ)
    else
      match canonicalIndex k with
      | some n =>
        match s.data.get? n with
        | some c => JValue.str (String.mk [c])
        | none => JValue.undef
      | none => JValue.undef
  | _, _ => JValue.undef

/-- JS `a || b` on values. -/
def jsOrJ (a b : JValue) : JValue := if a.falsy then b else a

/-! ## `getNestedProperty` (`src/adapters/custom.ts:4-6`) -/

/-- Split a character list at every separator (keeping empty pieces,
like `String.split`). -/
def splitSegsAux (cur : List Char) : List Char → List String
  | [] => [String.mk cur.reverse]
  | c :: rest =>
    if c = '.' ∨ c = '[' ∨ c = ']' then
      String.mk cur.reverse :: splitSegsAux [] rest
    else splitSegsAux (c :: cur) rest

/-- `path.split(/[.[\]]+/).filter(Boolean)`: splitting on single
separator chars and dropping the empty pieces equals splitting on runs. -/
def splitSegs (path : String) : List String :=
  (splitSegsAux [] path.data).filter (fun s => !s.isEmpty)

/-- One step of the reduce: `acc && acc[part]` (short-circuits on any
falsy accumulator, keeping that falsy value). -/
def jsAndGet (acc : JValue) (part : String) : JValue :=
  if acc.falsy then acc else acc.get part

/-- `getNestedProperty(obj, path)` (`src/adapters/custom.ts:4-6`). -/
def getNestedProperty (obj : JValue) (path : String) : JValue :=
  (splitSegs path).foldl jsAndGet obj

/-! ## JSON (`JSON.parse` / `JSON.stringify` of a string, as the template
engine uses them) -/

def hexDigit (n : Nat) : Char :=
  if n < 10 then Char.ofNat (48 + n) else Char.ofNat (87 + n)

/-- How `JSON.stringify` escapes one character of a string. -/
def escapeJsonChar (c : Char) : List Char :=
  if c = '\"' then ['\\', '\"']
  else if c = '\\' then ['\\', '\\']
  else if c = Char.ofNat 8 then ['\\', 'b']
  else if c = '\t' then ['\\', 't']
  else if c = '\n' then ['\\', 'n']
  else if c = Char.ofNat 12 then ['\\', 'f']
  else if c = '\r' then ['\\', 'r']
  else if c.toNat < 32 then
    ['\\', 'u', '0', '0', hexDigit (c.toNat / 16), hexDigit (c.toNat % 16)]
  else [c]

/-- `JSON.stringify` of a string value. -/
def jsonStringifyString (s : String) : String :=
  String.mk ('\"' :: (s.data.flatMap escapeJsonChar ++ ['\"']))

def isJsonWs (c : Char) : Bool :=
  c = ' ' || c = '\t' || c = '\n' || c = '\r'

def skipWs : List Char → List Char
  | [] => []
  | c :: rest => if isJsonWs c then skipWs rest else c :: rest

def hexVal (c : Char) : Option Nat :=
  if '0' ≤ c ∧ c ≤ '9' then some (c.toNat - 48)
  else if 'a' ≤ c ∧ c ≤ 'f' then some (c.toNat - 87)
  else if 'A' ≤ c ∧ c ≤ 'F' then some (c.toNat - 55)
  else none

def simpleEscape (c : Char) : Option Char :=
  if c = '\"' then some '\"'
  else if c = '\\' then some '\\'
  else if c = '/' then some '/'
  else if c = 'b' then some (Char.ofNat 8)
  else if c = 'f' then some (Char.ofNat 12)
  else if c = 'n' then some '\n'
  else if c = 'r' then some '\r'
  else if c = 't' then some '\t'
  else none

/-- The body of a JSON string after the opening quote: the decoded
characters and the rest of the input past the closing quote. -/
def parseStringBody : List Char → Option (List Char × List Char)
  | [] => none
  | c :: rest =>
    if c = '\"' then some ([], rest)
    else if c = '\\' then
      match rest with
      | [] => none
      | e :: rest2 =>
        if e = 'u' then
          match rest2 with
          | a :: b :: c2 :: d :: rest3 =>
            match hexVal a, hexVal b, hexVal c2, hexVal d with
            | some ha, some hb, some hc, some hd =>
              match parseStringBody rest3 with
              | some (cs, r) =>
                some (Char.ofNat (((ha * 16 + hb) * 16 + hc) * 16 + hd) :: cs, r)
              | none => none
            | _, _, _, _ => none
          | _ => none
        else
          match simpleEscape e with
          | some ec =>
            match parseStringBody rest2 with
            | some (cs, r) => some (ec :: cs, r)
            | none => none
          | none => none
    else if c.toNat < 32 then none
    else
      match parseStringBody rest with
      | some (cs, r) => some (c :: cs, r)
      | none => none

/-- A JSON number (sign, integer part without leading zeros, optional
fraction and exponent). -/
def parseNumber (s : List Char) : Option (ℚ × List Char) :=
  let (neg, s1) := match s with
    | '-' :: r => (true, r)
    | _ => (false, s)
  let intDigits := s1.takeWhile Char.isDigit
  let s2 := s1.dropWhile Char.isDigit
  if intDigits.isEmpty then none
  else if intDigits.length > 1 ∧ intDigits.head? = some '0' then none
  else
    let (fracDigits, s3) := match s2 with
      | '.' :: r => (r.takeWhile Char.isDigit, r.dropWhile Char.isDigit)
      | _ => ([], s2)
    if (match s2 with | '.' :: _ => fracDigits.isEmpty | _ => false) then none
    else
      let mantissa : ℚ :=
        (digitsToNat intDigits : ℚ) + (digitsToNat fracDigits : ℚ) / ((10 : ℚ) ^ fracDigits.length)
      let signed := if neg then -mantissa else mantissa
      match s3 with
      | c :: r =>
        if c = 'e' ∨ c = 'E' then
          let (eneg, r1) := match r with
            | '+' :: rr => (false, rr)
            | '-' :: rr => (true, rr)
            | _ => (false, r)
          let eds := r1.takeWhile Char.isDigit
          let r2 := r1.dropWhile Char.isDigit
          if eds.isEmpty then none
          else
            let ev : ℚ := (10 : ℚ) ^ (digitsToNat eds)
            some ((if eneg then signed / ev else signed * ev), r2)
        else some (signed, c :: r)
      | [] => some (signed, [])

mutual

/-- One JSON value and the remaining input (fuel-indexed recursion;
`parseJson` supplies ample fuel). -/
def parseValue : Nat → List Char → Option (JValue × List Char)
  | 0, _ => none
  | Nat.succ fuel, s =>
    match skipWs s with
    | 'n' :: 'u' :: 'l' :: 'l' :: rest => some (JValue.null, rest)
    | 't' :: 'r' :: 'u' :: 'e' :: rest => some (JValue.bool true, rest)
    | 'f' :: 'a' :: 'l' :: 's' :: 'e' :: rest => some (JValue.bool false, rest)
    | '\"' :: rest =>
      match parseStringBody rest with
      | some (cs, r) => some (JValue.str (String.mk cs), r)
      | none => none
    | '[' :: rest =>
      match skipWs rest with
      | ']' :: r => some (JValue.arr [], r)
      | s1 =>
        match parseElems fuel s1 with
        | some (vs, r) => some (JValue.arr vs, r)
        | none => none
    | '\x7b' :: rest =>
      match skipWs rest with
      | '\x7d' :: r => some (JValue.obj [], r)
      | s1 =>
        match parseFields fuel s1 with
        | some (fs, r) => some (JValue.obj fs, r)
        | none => none
    | s1 =>
      match parseNumber s1 with
      | some (q, r) => some (JValue.num q, r)
      | none => none

/-- A non-empty comma-separated element list up to the closing `]`. -/
def parseElems : Nat → List Char → Option (List JValue × List Char)
  | 0, _ => none
  | Nat.succ fuel, s =>
    match parseValue fuel s with
    | some (v, r) =>
      match skipWs r with
      | ',' :: r2 =>
        match parseElems fuel r2 with
        | some (vs, r3) => some (v :: vs, r3)
        | none => none
      | ']' :: r2 => some ([v], r2)
      | _ => none
    | none => none

/-- A non-empty comma-separated field list up to the closing brace. -/
def parseFields : Nat → List Char → Option (List (String × JValue) × List Char)
  | 0, _ => none
  | Nat.succ fuel, s =>
    match skipWs s with
    | '\"' :: rest =>
      match parseStringBody rest with
      | some (kcs, r1) =>
        match skipWs r1 with
        | ':' :: r2 =>
          match parseValue fuel r2 with
          | some (v, r3) =>
            match skipWs r3 with
            | ',' :: r4 =>
              match parseFields fuel r4 with
              | some (fs, r5) => some ((String.mk kcs, v) :: fs, r5)
              | none => none
            | '\x7d' :: r4 => some ([(String.mk kcs, v)], r4)
            | _ => none
          | none => none
        | _ => none
      | none => none
    | _ => none

end

/-- `JSON.parse`: one value consuming the whole input (duplicate object
keys do not occur in the modelled inputs). -/
def parseJson (s : String) : Option JValue :=
  match parseValue (3 * s.length + 3) s.data with
  | some (v, rest) =>
    match skipWs rest with
    | [] => some v
    | _ => none
  | none => none

/-! ## String.prototype.replace with a global plain-text pattern -/

/-- ECMAScript `GetSubstitution` for a string replacement and a
capture-free pattern: `$$` inserts a dollar; `$&` inserts the matched
text; `$` followed by a backtick (`Char.ofNat 96`) inserts the portion
of the original string before the match; `$'` (`Char.ofNat 39`) the
portion after it. Any other `$`-sequence passes through literally
(there are no capture groups or named groups in the modelled regexes,
so `$1`-`$9` and `$<` are literal per the spec table). -/
def getSubstitution (matched before after : List Char) : List Char → List Char
  | [] => []
  | c :: r =>
    if c = '$' then
      match r with
      | [] => ['$']
      | d :: r' =>
        if d = '$' then '$' :: getSubstitution matched before after r'
        else if d = '&' then matched ++ getSubstitution matched before after r'
        else if d = Char.ofNat 96 then before ++ getSubstitution matched before after r'
        else if d = Char.ofNat 39 then after ++ getSubstitution matched before after r'
        else '$' :: getSubstitution matched before after (d :: r')
    else c :: getSubstitution matched before after r

/-- Left-to-right, non-overlapping replacement of every occurrence of
`pat` (the semantics of `s.replace(/pat/g, rep)` for a pattern of plain
characters and a string replacement `rep`): each match is replaced by
`GetSubstitution` of `rep`, where the before/after context is taken
from the original string (`pre` accumulates the already scanned
original prefix). Fuel is the length of the scanned text; `pat` is
never empty in the modelled calls. -/
def replaceAllAux (pat rep : List Char) : Nat → List Char → List Char → List Char
  | 0, _, s => s
  | Nat.succ fuel, pre, s =>
    match s with
    | [] => []
    | c :: rest =>
      if pat.isPrefixOf (c :: rest) then
        getSubstitution pat pre ((c :: rest).drop pat.length) rep ++
          replaceAllAux pat rep fuel (pre ++ pat) ((c :: rest).drop pat.length)
      else
        c :: replaceAllAux pat rep fuel (pre ++ [c]) rest

def jsReplaceAll (s pat rep : String) : String :=
  String.mk (replaceAllAux pat.data rep.data s.data.length [] s.data)

/-! ## Request-body construction
(`CustomAdapter._buildRequestBody`, `src/adapters/custom.ts:60-98`) -/

/-- JS `x || d` over an optional number (`0` is falsy). -/
def jsOrNum (a : Option ℚ) (d : ℚ) : ℚ :=
  match a with
  | some q => if q = 0 then d else q
  | none => d

/-- JS `String(number)` on the modelled fragment: integers print without
a decimal point, finite decimals print minimally (the shortest-round-trip
printing of arbitrary doubles is outside the fragment; every value a
claim exercises is an integer). -/
def jsNumToString (q : ℚ) : String :=
  if q.den = 1 then toString q.num
  else
    match (List.range 40).find? (fun k => (q * (10 : ℚ) ^ (k + 1)).den = 1) with
    | some k =>
      let k1 := k + 1
      let n := (q * (10 : ℚ) ^ k1).num.natAbs
      let sign := if q < 0 then "-" else ""
      let digits := Nat.toDigits 10 n
      let padded := List.replicate (k1 + 1 - digits.length) '0' ++ digits
      sign ++ String.mk (padded.take (padded.length - k1)) ++ "." ++
        String.mk (padded.drop (padded.length - k1))
    | none => toString q

def ctypeToString : CType → String
  | CType.text => "text"
  | CType.image => "image"
  | CType.audio => "audio"
  | CType.video => "video"

def strategyToString : Strategy → String
  | Strategy.cost => "cost"
  | Strategy.latency => "latency"
  | Strategy.quality => "quality"

def qualityToString : Quality → String
  | Quality.low => "low"
  | Quality.medium => "medium"
  | Quality.high => "high"

def paramsToJValue (p : GenParams) : JValue :=
  JValue.obj
    ((match p.temperature with | some q => [("temperature", JValue.num q)] | none => []) ++
     (match p.maxTokens with | some q => [("maxTokens", JValue.num q)] | none => []) ++
     (match p.topP with | some q => [("topP", JValue.num q)] | none => []))

/-- The request's own enumerable fields in interface order (an absent
optional field contributes no key). -/
def requestFields (req : GenerateRequest) : List (String × JValue) :=
  [("type", JValue.str (ctypeToString req.type)), ("prompt", JValue.str req.prompt)] ++
  (match req.strategy with | some s => [("strategy", JValue.str (strategyToString s))] | none => []) ++
  (match req.quality with | some q => [("quality", JValue.str (qualityToString q))] | none => []) ++
  (match req.systemPrompt with | some s => [("systemPrompt", JValue.str s)] | none => []) ++
  (match req.params with | some p => [("params", paramsToJValue p)] | none => [])

/-- The no-template default payload `{ model: modelId, ...request }`. -/
def defaultRequestPayload (req : GenerateRequest) (modelId : String) : JValue :=
  JValue.obj (("model", JValue.str modelId) :: requestFields req)

/-- The placeholder-substitution pipeline of `_buildRequestBody` applied
to a non-empty template `t` (the `'prompt' in request` branch; `{{model}}`
first, then each quoted placeholder before its raw form, then the numeric
parameters with their `||` defaults), ending in `JSON.parse`. -/
def renderTemplate (t : String) (req : GenerateRequest) (modelId : String) :
    Except String JValue :=
  let b0 := jsReplaceAll t "\x7b\x7bmodel\x7d\x7d" modelId
  let b1 := jsReplaceAll b0 "\"\x7b\x7bprompt\x7d\x7d\"" (jsonStringifyString req.prompt)
  let b2 := jsReplaceAll b1 "\x7b\x7bprompt\x7d\x7d" req.prompt
  let b3 := jsReplaceAll b2 "\"\x7b\x7bsystemPrompt\x7d\x7d\""
    (jsonStringifyString (req.systemPrompt.getD ""))
  let b4 := jsReplaceAll b3 "\x7b\x7bsystemPrompt\x7d\x7d" (req.systemPrompt.getD "")
  let b5 := jsReplaceAll b4 "\x7b\x7btemperature\x7d\x7d"
    (jsNumToString (jsOrNum (req.params.bind (fun p => p.temperature)) 1))
  let b6 := jsReplaceAll b5 "\x7b\x7bmaxTokens\x7d\x7d"
    (jsNumToString (jsOrNum (req.params.bind (fun p => p.maxTokens)) 512))
  let b7 := jsReplaceAll b6 "\x7b\x7btopP\x7d\x7d"
    (jsNumToString (jsOrNum (req.params.bind (fun p => p.topP)) 1))
  match parseJson b7 with
  | some v => Except.ok v
  | none => Except.error "Unexpected token in JSON"

/-- `CustomAdapter._buildRequestBody` (`src/adapters/custom.ts:60-98`)
instantiated at a `GenerateRequest` (the `'texts' in request` branch for
embedding requests is not reached from `generate`). The `Except.error`
case is a thrown `JSON.parse` exception. -/
def buildRequestBody (cfg : ProviderConfig) (req : GenerateRequest) (modelId : String) :
    Except String JValue :=
  let modelConfig := cfg.models.find? (fun m => m.id == modelId)
  let requestBodyTemplate :=
    orFalsy (modelConfig.bind (fun m => m.requestBodyTemplate)) cfg.requestBodyTemplate
  match requestBodyTemplate with
  | none => Except.ok (defaultRequestPayload req modelId)
  | some t =>
    if t.isEmpty then Except.ok (defaultRequestPayload req modelId)
    else renderTemplate t req modelId

/-! ## Health gate (`CustomAdapter.checkHealth`, `src/adapters/custom.ts:29-54`) -/

structure HealthStatus where
  isHealthy : Bool
  lastChecked : Int
deriving DecidableEq, Repr

/-- `healthCacheTTL = 60 * 1000` milliseconds. -/
def healthCacheTTL : Int := 60 * 1000

/-- `CustomAdapter.checkHealth`: returns (the boolean result, the new
cached health status, whether a network probe was issued). `probeOk` is
the probe's outcome when one is issued (`response.ok`; a thrown fetch
error also yields `false` and caches `false`). The adapter stores
`healthCheckEndpoint ?? ""` and tests its truthiness, which
`truthyOpt` captures. -/
def checkHealth (healthCheckEndpoint : Option String) (st : HealthStatus) (now : Int)
    (probeOk : Bool) : Bool × HealthStatus × Bool :=
  if !(truthyOpt healthCheckEndpoint) then (true, st, false)
  else if st.isHealthy = true ∧ now - st.lastChecked < healthCacheTTL then (true, st, false)
  else if st.isHealthy = false ∧ now - st.lastChecked < healthCacheTTL then (false, st, false)
  else (probeOk, ⟨probeOk, now⟩, true)

/-- A sequence of health-gated calls on one adapter instance: each call
carries its clock reading and the outcome a probe would have; returns the
final cached status and how many network probes were issued. -/
def runHealthCalls (ep : Option String) : HealthStatus → List (Int × Bool) → HealthStatus × Nat
  | st, [] => (st, 0)
  | st, (now, probeOk) :: rest =>
    let r := checkHealth ep st now probeOk
    let rec_ := runHealthCalls ep r.2.1 rest
    (rec_.1, (if r.2.2 then 1 else 0) + rec_.2)

/-! ## `CustomAdapter.generate` (`src/adapters/custom.ts:100-183`) -/

/-- The custom adapter's `GenerateResult` as it builds it (`error` and
`orchestratorJobId` are copied verbatim from the response object, so they
are arbitrary JS values). -/
structure CustomGenerateResult where
  status : Status
  provider : String
  model : String
  data : Option String := none
  error : JValue := JValue.undef
  orchestratorJobId : JValue := JValue.undef

/-- `modelConfig?.responseExtractor || this.config.responseExtractor`. -/
def responseExtractorOf (cfg : ProviderConfig) (modelId : String) : Option String :=
  orFalsy ((cfg.models.find? (fun m => m.id == modelId)).bind (fun m => m.responseExtractor))
    cfg.responseExtractor

/-- The extraction stage of `generate`: the configured path through
`getNestedProperty`, else the conventional `data || text` fallback. -/
def extractData (cfg : ProviderConfig) (modelId : String) (responseData : JValue) : JValue :=
  match responseExtractorOf cfg modelId with
  | some p =>
    if p.isEmpty then jsOrJ (responseData.get "data") (responseData.get "text")
    else getNestedProperty responseData p
  | none => jsOrJ (responseData.get "data") (responseData.get "text")

/-- JS template interpolation of `this.config.responseExtractor`
(`undefined` prints as "undefined"). -/
def optToJsString : Option String → String
  | some s => s
  | none => "undefined"

def notAStringMsg (cfg : ProviderConfig) : String :=
  "Response extractor path \"" ++ optToJsString cfg.responseExtractor ++
    "\" did not yield a string."

/-- The response-processing tail of `generate`: extract, require a string
(`typeof extractedData !== 'string'` throws, which the surrounding `catch`
turns into a failed result carrying the thrown message), else build the
completed result. -/
def processResponse (cfg : ProviderConfig) (modelId : String) (responseData : JValue) :
    CustomGenerateResult :=
  match extractData cfg modelId responseData with
  | JValue.str s =>
    { status := Status.completed, orchestratorJobId := responseData.get "jobId",
      provider := cfg.name, model := modelId, data := some s,
      error := responseData.get "error" }
  | _ =>
    { status := Status.failed, provider := cfg.name, model := modelId,
      error := JValue.str (notAStringMsg cfg) }

def unhealthyMsg : String := "Custom server is unhealthy or unreachable."

def unknownErrorMsg : String := "An unknown error occurred with the custom provider."

/-- `CustomAdapter.generate`: the health gate, then the network
interaction inside the `try` block. `fetchResult` models that
interaction: `.ok responseData` is a 2xx response with parsed JSON body,
`.error msg` a thrown error (network failure, non-2xx status or body
parse failure) with its message; the `catch` turns the latter into a
failed result (an empty message falls back to the unknown-error text via
`||`). Returns (result, new cached health status, whether a probe was
issued). -/
def customGenerate (cfg : ProviderConfig) (modelId : String) (st : HealthStatus)
    (now : Int) (probeOk : Bool) (fetchResult : Except String JValue) :
    CustomGenerateResult × HealthStatus × Bool :=
  let r := checkHealth cfg.healthCheckEndpoint st now probeOk
  if !r.1 then
    ({ status := Status.failed, provider := cfg.name, model := modelId,
       error := JValue.str unhealthyMsg }, r.2.1, r.2.2)
  else
    match fetchResult with
    | Except.error msg =>
      ({ status := Status.failed, provider := cfg.name, model := modelId,
         error := JValue.str (if msg.isEmpty then unknownErrorMsg else msg) }, r.2.1, r.2.2)
    | Except.ok responseData => (processResponse cfg modelId responseData, r.2.1, r.2.2)

/-! ## The orchestrator (`AIOrchestrator`, `src/index.ts`) -/

/-- JS `Map.get` over an association list (at most one entry per key by
construction of `mapSet`). -/
def mapGet {α : Type} (m : List (String × α)) (k : String) : Option α :=
  (m.find? (fun e => e.1 == k)).map (fun e => e.2)

/-- JS `Map.set`: replace in place, else append. -/
def mapSet {α : Type} (m : List (String × α)) (k : String) (v : α) : List (String × α) :=
  if m.any (fun e => e.1 == k) then m.map (fun e => if e.1 == k then (k, v) else e)
  else m ++ [(k, v)]

/-- JS `Map.delete`. -/
def mapDelete {α : Type} (m : List (String × α)) (k : String) : List (String × α) :=
  m.filter (fun e => !(e.1 == k))

/-- An entry of the `activeJobs` registry. -/
structure ActiveJob where
  providerName : String
  providerJobId : String
deriving DecidableEq, Repr

/-- The behaviour of an `IProviderAdapter` as the orchestrator observes
it: `generate` may return a structured result or throw (`Except.error`
carries the thrown message); `checkJobStatus` is an optional capability
that may likewise throw. -/
structure Adapter where
  generate : GenerateRequest → String → Except String GenerateResult
  checkJobStatus : Option (String → Except String JobStatusResult) := none

abbrev AdapterMap := List (String × Adapter)

abbrev JobMap := List (String × ActiveJob)

/-- `AIOrchestrator.createOrchestratorJobId` (`src/index.ts:112-115`):
the sha256 hex digest of `` `${providerName}-${providerJobId}` ``.
`hash` abstracts the digest; "collision-free" in a claim means `hash`
injective. -/
def createOrchestratorJobId (hash : String → String)
    (providerName providerJobId : String) : String :=
  hash (providerName ++ "-" ++ providerJobId)

def noSuitableResult : GenerateResult :=
  { status := Status.failed, provider := "none", model := "none",
    error := some "No suitable provider found." }

def allFailedResult : GenerateResult :=
  { status := Status.failed, provider := "none", model := "none",
    error := some "All configured providers failed." }

/-- What a `generate` call produces: the returned result, the registry
after the call, and the adapter invocations (provider name, model id) it
made, in order. -/
structure GenOutcome where
  result : GenerateResult
  jobs : JobMap
  calls : List (String × String)
deriving DecidableEq, Repr

/-- The candidate loop of `AIOrchestrator.generate` (`src/index.ts:54-87`):
skip a candidate with no registered adapter; invoke the adapter; register
and return a pending result that carries a truthy provider job id; return
a completed result; treat anything else — a failed result, a pending
result with no job id, or a thrown exception (`Except.error`) — as
failure and continue. -/
def generateGo (hash : String → String) (adapters : AdapterMap)
    (request : GenerateRequest) : List Candidate → JobMap → GenOutcome
  | [], jobs => ⟨allFailedResult, jobs, []⟩
  | c :: rest, jobs =>
    match mapGet adapters c.provider.name with
    | none => generateGo hash adapters request rest jobs
    | some ad =>
      match ad.generate request c.model.id with
      | Except.error _ =>
        let o := generateGo hash adapters request rest jobs
        ⟨o.result, o.jobs, (c.provider.name, c.model.id) :: o.calls⟩
      | Except.ok result =>
        if result.status = Status.pending ∧ truthyOpt result.orchestratorJobId = true then
          let pj := result.orchestratorJobId.getD ""
          let oid := createOrchestratorJobId hash c.provider.name pj
          ⟨{ result with orchestratorJobId := some oid },
            mapSet jobs oid (ActiveJob.mk c.provider.name pj), [(c.provider.name, c.model.id)]⟩
        else if result.status = Status.completed then
          ⟨result, jobs, [(c.provider.name, c.model.id)]⟩
        else
          let o := generateGo hash adapters request rest jobs
          ⟨o.result, o.jobs, (c.provider.name, c.model.id) :: o.calls⟩

/-- `AIOrchestrator.generate` (`src/index.ts:46-88`) over the
orchestrator's state (adapter map and active-jobs registry). -/
def generate (hash : String → String) (cfg : OrchestratorConfig) (adapters : AdapterMap)
    (request : GenerateRequest) (jobs : JobMap) : GenOutcome :=
  let candidateProviders := getSortedProviders cfg request
  if candidateProviders.isEmpty then ⟨noSuitableResult, jobs, []⟩
  else generateGo hash adapters request candidateProviders jobs

/-- The candidate loop once more, with the `try` block's exception flow
explicit in `Except`: the body runs in the exception monad and the
`catch` turns any thrown value into "continue with the next candidate".
`generateGoE` never yields `Except.error` (see the loop lemma used by the
C4 theorem), which is the no-escalation property for `generate`. -/
def generateGoE (hash : String → String) (adapters : AdapterMap)
    (request : GenerateRequest) : List Candidate → JobMap → Except String GenOutcome
  | [], jobs => Except.ok ⟨allFailedResult, jobs, []⟩
  | c :: rest, jobs =>
    match mapGet adapters c.provider.name with
    | none => generateGoE hash adapters request rest jobs
    | some ad =>
      let attempt : Except String (Option (GenerateResult × JobMap)) := do
        let result ← ad.generate request c.model.id
        if result.status = Status.pending ∧ truthyOpt result.orchestratorJobId = true then
          let pj := result.orchestratorJobId.getD ""
          let oid := createOrchestratorJobId hash c.provider.name pj
          pure (some ({ result with orchestratorJobId := some oid },
            mapSet jobs oid (ActiveJob.mk c.provider.name pj)))
        else if result.status = Status.completed then
          pure (some (result, jobs))
        else pure none
      match attempt with
      | Except.ok (some (r, j)) => Except.ok ⟨r, j, [(c.provider.name, c.model.id)]⟩
      | Except.ok none =>
        match generateGoE hash adapters request rest jobs with
        | Except.ok o => Except.ok ⟨o.result, o.jobs, (c.provider.name, c.model.id) :: o.calls⟩
        | Except.error e => Except.error e
      | Except.error _ =>
        match generateGoE hash adapters request rest jobs with
        | Except.ok o => Except.ok ⟨o.result, o.jobs, (c.provider.name, c.model.id) :: o.calls⟩
        | Except.error e => Except.error e

/-- `generate` with the exception flow explicit. -/
def generateE (hash : String → String) (cfg : OrchestratorConfig) (adapters : AdapterMap)
    (request : GenerateRequest) (jobs : JobMap) : Except String GenOutcome :=
  let candidateProviders := getSortedProviders cfg request
  if candidateProviders.isEmpty then Except.ok ⟨noSuitableResult, jobs, []⟩
  else generateGoE hash adapters request candidateProviders jobs

def jobNotFoundResult : JobStatusResult :=
  { status := Status.failed, error := some "Job not found or already completed." }

def capMissingResult (providerName : String) : JobStatusResult :=
  { status := Status.failed,
    error := some ("Provider '" ++ providerName ++ "' does not support job status checks.") }

/-- `AIOrchestrator.getJobResult` (`src/index.ts:90-110`): unknown id,
missing adapter or missing `checkJobStatus` capability give structured
failures; otherwise the delegated status check runs — NOT wrapped in
`try`/`catch` in the source, so a thrown value (`Except.error`)
propagates to the caller. A terminal status deletes the registry entry.
Returns the result and the registry after the call. -/
def getJobResult (adapters : AdapterMap) (jobs : JobMap) (orchestratorJobId : String) :
    Except String (JobStatusResult × JobMap) :=
  match mapGet jobs orchestratorJobId with
  | none => Except.ok (jobNotFoundResult, jobs)
  | some job =>
    match mapGet adapters job.providerName with
    | none => Except.ok (capMissingResult job.providerName, jobs)
    | some ad =>
      match ad.checkJobStatus with
      | none => Except.ok (capMissingResult job.providerName, jobs)
      | some check =>
        match check job.providerJobId with
        | Except.error e => Except.error e
        | Except.ok result =>
          if result.status = Status.completed ∨ result.status = Status.failed then
            Except.ok (result, mapDelete jobs orchestratorJobId)
          else Except.ok (result, jobs)

/-- `String.prototype.toLowerCase` (ASCII suffices for the compared
provider names). -/
def lowerString (s : String) : String :=
  String.mk (s.data.map Char.toLower)

/-- One iteration of `initializeAdapters`' loop: the `switch` on
`provider.name.toLowerCase()` (a custom provider is only registered when
it has a truthy `baseUrl`). -/
def initStep (mkOpenai mkGoogle : String → Adapter)
    (mkCustom : ProviderConfig → Adapter) (m : AdapterMap) (p : ProviderConfig) :
    AdapterMap :=
  match lowerString p.name with
  | "openai" => mapSet m "openai" (mkOpenai p.apiKey)
  | "google" => mapSet m "google" (mkGoogle p.apiKey)
  | "custom" => if truthyOpt p.baseUrl then mapSet m "custom" (mkCustom p) else m
  | _ => m

/-- `AIOrchestrator.initializeAdapters` (`src/index.ts:28-44`): the
adapter map built from the catalog. The concrete adapter constructors are
parameters (their behaviour is irrelevant to the map's keys). -/
def initializeAdapters (mkOpenai mkGoogle : String → Adapter)
    (mkCustom : ProviderConfig → Adapter) (providers : List ProviderConfig) : AdapterMap :=
  providers.foldl (initStep mkOpenai mkGoogle mkCustom) []

/-! ## Helper lemmas -/

theorem mapGet_nil {α : Type} (k : String) : mapGet ([] : List (String × α)) k = none := rfl

theorem mapSet_of_get_none {α : Type} {m : List (String × α)} {k : String} (v : α)
    (h : mapGet m k = none) : mapSet m k v = m ++ [(k, v)] := by
  have h2 : m.find? (fun e => e.1 == k) = none := by
    simpa [mapGet] using h
  have h3 : ∀ e ∈ m, ¬ (e.1 == k) = true := by
    simpa [List.find?_eq_none] using h2
  have h4 : m.any (fun e => e.1 == k) = false := by
    simp only [List.any_eq_false]
    exact fun e he => h3 e he
  simp [mapSet, h4]

theorem mapGet_append_single {α : Type} {m : List (String × α)} {k : String} (v : α)
    (h : mapGet m k = none) : mapGet (m ++ [(k, v)]) k = some v := by
  have h2 : m.find? (fun e => e.1 == k) = none := by
    simpa [mapGet] using h
  simp [mapGet, List.find?_append, h2]

theorem mapGet_mapDelete_self {α : Type} (m : List (String × α)) (k : String) :
    mapGet (mapDelete m k) k = none := by
  induction m with
  | nil => rfl
  | cons e rest ih =>
    by_cases h : (e.1 == k) = true
    · rw [show mapDelete (e :: rest) k = mapDelete rest k by
        simp [mapDelete, List.filter, h]]
      exact ih
    · simp only [Bool.not_eq_true] at h
      rw [show mapDelete (e :: rest) k = e :: mapDelete rest k by
        simp [mapDelete, List.filter, h]]
      rw [show mapGet (e :: mapDelete rest k) k =
          mapGet (mapDelete rest k) k by simp [mapGet, List.find?, h]]
      exact ih

theorem mapGet_isSome_iff {α : Type} (m : List (String × α)) (k : String) :
    (mapGet m k).isSome = true ↔ ∃ e, e ∈ m ∧ e.1 = k := by
  simp [mapGet]

theorem mapGet_mapSet_isSome {α : Type} {m : List (String × α)} {k k' : String} {v : α}
    (h : (mapGet (mapSet m k v) k').isSome = true) :
    k' = k ∨ (mapGet m k').isSome = true := by
  rcases (mapGet_isSome_iff (mapSet m k v) k').mp h with ⟨e, he, hk⟩
  by_cases hmem : m.any (fun e => e.1 == k) = true
  · rw [mapSet, if_pos hmem] at he
    rcases List.mem_map.mp he with ⟨e0, he0, heq⟩
    by_cases h0 : (e0.1 == k) = true
    · rw [if_pos h0] at heq
      left
      rw [← hk, ← heq]
    · rw [if_neg h0] at heq
      right
      exact (mapGet_isSome_iff m k').mpr ⟨e0, he0, by rw [heq]; exact hk⟩
  · rw [mapSet, if_neg hmem] at he
    rcases List.mem_append.mp he with he | he
    · right
      exact (mapGet_isSome_iff m k').mpr ⟨e, he, hk⟩
    · left
      simp only [List.mem_singleton] at he
      rw [← hk, he]

theorem mapGet_mapSet_isSome_of {α : Type} {m : List (String × α)} {k : String}
    (k' : String) (v : α) (h : (mapGet m k).isSome = true) :
    (mapGet (mapSet m k' v) k).isSome = true := by
  rcases (mapGet_isSome_iff m k).mp h with ⟨e, he, hk⟩
  by_cases hmem : m.any (fun e => e.1 == k') = true
  · rw [mapSet, if_pos hmem]
    refine (mapGet_isSome_iff _ _).mpr ?_
    by_cases h0 : (e.1 == k') = true
    · refine ⟨(k', v), List.mem_map.mpr ⟨e, he, by rw [if_pos h0]⟩, ?_⟩
      simp only [beq_iff_eq] at h0
      rw [← h0]
      exact hk
    · exact ⟨e, List.mem_map.mpr ⟨e, he, by rw [if_neg h0]⟩, hk⟩
  · rw [mapSet, if_neg hmem]
    exact (mapGet_isSome_iff _ _).mpr ⟨e, List.mem_append.mpr (Or.inl he), hk⟩

theorem mapGet_mapSet_self {α : Type} (m : List (String × α)) (k : String) (v : α)
    (h : mapGet m k = none) : mapGet (mapSet m k v) k = some v := by
  rw [mapSet_of_get_none v h]
  exact mapGet_append_single v h

/-- An adapter invocation outcome that the loop passes over: a thrown
exception, a failed result, or a pending result with no (truthy) job id. -/
def attemptFails (e : Except String GenerateResult) : Prop :=
  ∀ r, e = Except.ok r →
    ¬ (r.status = Status.pending ∧ truthyOpt r.orchestratorJobId = true) ∧
    r.status ≠ Status.completed

/-- A candidate the loop passes over (also when its provider simply has
no registered adapter). -/
def candidateFails (adapters : AdapterMap) (request : GenerateRequest) (c : Candidate) : Prop :=
  ∀ ad, mapGet adapters c.provider.name = some ad →
    attemptFails (ad.generate request c.model.id)

/-- The adapter invocations the loop makes over a candidate segment it
passes over entirely: one per candidate that has a registered adapter, in
order. -/
def callsOf (adapters : AdapterMap) (cands : List Candidate) : List (String × String) :=
  (cands.filter (fun c => (mapGet adapters c.provider.name).isSome)).map
    (fun c => (c.provider.name, c.model.id))

theorem generateGo_all_fail (hash : String → String) (adapters : AdapterMap)
    (request : GenerateRequest) (cands : List Candidate) (jobs : JobMap)
    (h : ∀ c ∈ cands, candidateFails adapters request c) :
    generateGo hash adapters request cands jobs =
      ⟨allFailedResult, jobs, callsOf adapters cands⟩ := by
  induction cands with
  | nil => rfl
  | cons c rest ih =>
    have hrest : ∀ c' ∈ rest, candidateFails adapters request c' :=
      fun c' hc' => h c' (List.mem_cons_of_mem _ hc')
    cases hm : mapGet adapters c.provider.name with
    | none =>
      rw [show generateGo hash adapters request (c :: rest) jobs =
          generateGo hash adapters request rest jobs by
        simp [generateGo, hm]]
      rw [ih hrest]
      simp [callsOf, List.filter_cons, hm]
    | some ad =>
      have hfail := h c (List.mem_cons_self _ _) ad hm
      cases hg : ad.generate request c.model.id with
      | error e =>
        rw [show generateGo hash adapters request (c :: rest) jobs =
            ⟨(generateGo hash adapters request rest jobs).result,
             (generateGo hash adapters request rest jobs).jobs,
             (c.provider.name, c.model.id) ::
               (generateGo hash adapters request rest jobs).calls⟩ by
          simp [generateGo, hm, hg]]
        rw [ih hrest]
        simp [callsOf, List.filter_cons, hm]
      | ok r =>
        have hnp := (hfail r hg).1
        have hnc := (hfail r hg).2
        rw [show generateGo hash adapters request (c :: rest) jobs =
            ⟨(generateGo hash adapters request rest jobs).result,
             (generateGo hash adapters request rest jobs).jobs,
             (c.provider.name, c.model.id) ::
               (generateGo hash adapters request rest jobs).calls⟩ by
          simp [generateGo, hm, hg, hnp, hnc]]
        rw [ih hrest]
        simp [callsOf, List.filter_cons, hm]

theorem generateGo_append_fail (hash : String → String) (adapters : AdapterMap)
    (request : GenerateRequest) (pre rest : List Candidate) (jobs : JobMap)
    (h : ∀ c ∈ pre, candidateFails adapters request c) :
    generateGo hash adapters request (pre ++ rest) jobs =
      ⟨(generateGo hash adapters request rest jobs).result,
       (generateGo hash adapters request rest jobs).jobs,
       callsOf adapters pre ++ (generateGo hash adapters request rest jobs).calls⟩ := by
  induction pre with
  | nil => simp [callsOf]
  | cons c pre' ih =>
    have hrest : ∀ c' ∈ pre', candidateFails adapters request c' :=
      fun c' hc' => h c' (List.mem_cons_of_mem _ hc')
    cases hm : mapGet adapters c.provider.name with
    | none =>
      rw [show generateGo hash adapters request ((c :: pre') ++ rest) jobs =
          generateGo hash adapters request (pre' ++ rest) jobs by
        simp [generateGo, hm]]
      rw [ih hrest]
      simp [callsOf, List.filter_cons, hm]
    | some ad =>
      have hfail := h c (List.mem_cons_self _ _) ad hm
      cases hg : ad.generate request c.model.id with
      | error e =>
        rw [show generateGo hash adapters request ((c :: pre') ++ rest) jobs =
            ⟨(generateGo hash adapters request (pre' ++ rest) jobs).result,
             (generateGo hash adapters request (pre' ++ rest) jobs).jobs,
             (c.provider.name, c.model.id) ::
               (generateGo hash adapters request (pre' ++ rest) jobs).calls⟩ by
          simp [generateGo, hm, hg]]
        rw [ih hrest]
        simp [callsOf, List.filter_cons, hm]
      | ok r =>
        have hnp := (hfail r hg).1
        have hnc := (hfail r hg).2
        rw [show generateGo hash adapters request ((c :: pre') ++ rest) jobs =
            ⟨(generateGo hash adapters request (pre' ++ rest) jobs).result,
             (generateGo hash adapters request (pre' ++ rest) jobs).jobs,
             (c.provider.name, c.model.id) ::
               (generateGo hash adapters request (pre' ++ rest) jobs).calls⟩ by
          simp [generateGo, hm, hg, hnp, hnc]]
        rw [ih hrest]
        simp [callsOf, List.filter_cons, hm]

/-- Every invocation the loop records is of a provider name that has a
registered adapter. -/
theorem generateGo_calls_have_adapters (hash : String → String) (adapters : AdapterMap)
    (request : GenerateRequest) (cands : List Candidate) (jobs : JobMap)
    (pr mid : String)
    (h : (pr, mid) ∈ (generateGo hash adapters request cands jobs).calls) :
    (mapGet adapters pr).isSome = true := by
  induction cands generalizing jobs with
  | nil => simp [generateGo] at h
  | cons c rest ih =>
    cases hm : mapGet adapters c.provider.name with
    | none =>
      rw [show generateGo hash adapters request (c :: rest) jobs =
          generateGo hash adapters request rest jobs by simp [generateGo, hm]] at h
      exact ih jobs h
    | some ad =>
      cases hg : ad.generate request c.model.id with
      | error e =>
        rw [show (generateGo hash adapters request (c :: rest) jobs).calls =
            (c.provider.name, c.model.id) ::
              (generateGo hash adapters request rest jobs).calls by
          simp [generateGo, hm, hg]] at h
        rcases List.mem_cons.mp h with h | h
        · rw [show pr = c.provider.name from congrArg Prod.fst h, hm]
          rfl
        · exact ih jobs h
      | ok r =>
        by_cases hp : r.status = Status.pending ∧ truthyOpt r.orchestratorJobId = true
        · rw [show (generateGo hash adapters request (c :: rest) jobs).calls =
              [(c.provider.name, c.model.id)] by simp [generateGo, hm, hg, hp]] at h
          simp only [List.mem_singleton] at h
          rw [show pr = c.provider.name from congrArg Prod.fst h, hm]
          rfl
        · by_cases hc : r.status = Status.completed
          · rw [show (generateGo hash adapters request (c :: rest) jobs).calls =
                [(c.provider.name, c.model.id)] by simp [generateGo, hm, hg, hp, hc]] at h
            simp only [List.mem_singleton] at h
            rw [show pr = c.provider.name from congrArg Prod.fst h, hm]
            rfl
          · rw [show (generateGo hash adapters request (c :: rest) jobs).calls =
                (c.provider.name, c.model.id) ::
                  (generateGo hash adapters request rest jobs).calls by
              simp [generateGo, hm, hg, hp, hc]] at h
            rcases List.mem_cons.mp h with h | h
            · rw [show pr = c.provider.name from congrArg Prod.fst h, hm]
              rfl
            · exact ih jobs h

theorem exceptBind_ok {ε α β : Type} (a : α) (f : α → Except ε β) :
    (do let x ← (Except.ok a : Except ε α); f x) = f a := rfl

theorem exceptBind_error {ε α β : Type} (e : ε) (f : α → Except ε β) :
    (do let x ← (Except.error e : Except ε α); f x) = Except.error e := rfl

/-- The explicit-exception loop never escapes: it computes exactly the
caught-semantics loop wrapped in `Except.ok`. -/
theorem generateGoE_eq_ok (hash : String → String) (adapters : AdapterMap)
    (request : GenerateRequest) (cands : List Candidate) (jobs : JobMap) :
    generateGoE hash adapters request cands jobs =
      Except.ok (generateGo hash adapters request cands jobs) := by
  induction cands generalizing jobs with
  | nil => rfl
  | cons c rest ih =>
    cases hm : mapGet adapters c.provider.name with
    | none =>
      rw [show generateGoE hash adapters request (c :: rest) jobs =
          generateGoE hash adapters request rest jobs by simp [generateGoE, hm]]
      rw [show generateGo hash adapters request (c :: rest) jobs =
          generateGo hash adapters request rest jobs by simp [generateGo, hm]]
      exact ih jobs
    | some ad =>
      simp only [generateGoE, generateGo, hm]
      cases hg : ad.generate request c.model.id with
      | error e =>
        simp only [exceptBind_error, ih jobs]
      | ok r =>
        simp only [exceptBind_ok]
        by_cases hp : r.status = Status.pending ∧ truthyOpt r.orchestratorJobId = true
        · rw [if_pos hp, if_pos hp]
          rfl
        · rw [if_neg hp, if_neg hp]
          by_cases hc : r.status = Status.completed
          · rw [if_pos hc, if_pos hc]
            rfl
          · rw [if_neg hc, if_neg hc]
            simp only [ih jobs]
            rfl

/-! ## Fixtures for the witnesses -/

def wModelA : ModelConfig :=
  { id := "A", type := CType.text, cost := 0, quality := Quality.low,
    avg_latency_ms := none }

def wModelB : ModelConfig :=
  { id := "B", type := CType.text, cost := 1/10, quality := Quality.high,
    avg_latency_ms := some 100 }

def wModelC : ModelConfig :=
  { id := "C", type := CType.text, cost := 1, quality := Quality.medium,
    avg_latency_ms := some 50 }

def wProvider : ProviderConfig :=
  { name := "openai", apiKey := "k", models := [wModelC, wModelA, wModelB] }

def wCfg : OrchestratorConfig := { providers := [wProvider] }

def wReq : GenerateRequest := { type := CType.text, prompt := "x" }

/-! ## Claim theorems -/

/-- C3: for every catalog and request, the candidate list contains
exactly the (provider, model) pairs whose model content type equals the
request type (and whose quality tier equals the filter exactly, when
given), ordered by the chosen strategy's key — ascending cost under
`cost`, the fixed rank high=1, medium=2, low=3 ascending under `quality`,
ascending latency with unknown latency as `⊤` (after all known ones)
under `latency` — with ties (equal keys) kept in catalog iteration
order (phrased as: the sublist at each key value is unchanged). -/
theorem c3_candidate_selection (cfg : OrchestratorConfig) (req : GenerateRequest) :
    List.Perm (getSortedProviders cfg req) (eligibleCandidates cfg req) ∧
    (∀ c : Candidate, c ∈ getSortedProviders cfg req ↔
      (c ∈ cfg.providers.flatMap (fun p => p.models.map (fun m => Candidate.mk p m)) ∧
        c.model.type = req.type ∧ ∀ q, req.quality = some q → c.model.quality = q)) ∧
    (req.strategy.getD Strategy.cost = Strategy.cost →
      (getSortedProviders cfg req).Sorted (keyLe (fun c => c.model.cost)) ∧
      ∀ k : ℚ, (getSortedProviders cfg req).filter (fun c => decide (c.model.cost = k)) =
        (eligibleCandidates cfg req).filter (fun c => decide (c.model.cost = k))) ∧
    (req.strategy.getD Strategy.cost = Strategy.quality →
      (getSortedProviders cfg req).Sorted (keyLe (fun c => qualityOrder c.model.quality)) ∧
      ∀ k : Nat, (getSortedProviders cfg req).filter
          (fun c => decide (qualityOrder c.model.quality = k)) =
        (eligibleCandidates cfg req).filter
          (fun c => decide (qualityOrder c.model.quality = k))) ∧
    (req.strategy.getD Strategy.cost = Strategy.latency →
      (getSortedProviders cfg req).Sorted (keyLe (fun c => latKey c.model.avg_latency_ms)) ∧
      ∀ k : WithTop ℚ, (getSortedProviders cfg req).filter
          (fun c => decide (latKey c.model.avg_latency_ms = k)) =
        (eligibleCandidates cfg req).filter
          (fun c => decide (latKey c.model.avg_latency_ms = k))) := by
  refine ⟨?_, ?_, ?_, ?_, ?_⟩
  · cases h : req.strategy.getD Strategy.cost <;>
      simp only [getSortedProviders, h] <;> exact sortByKey_perm _ _
  · intro c
    have hmem : c ∈ getSortedProviders cfg req ↔ c ∈ eligibleCandidates cfg req := by
      cases h : req.strategy.getD Strategy.cost <;>
        simp only [getSortedProviders, h] <;>
        exact List.Perm.mem_iff (sortByKey_perm _ _)
    rw [hmem]
    cases hq : req.quality with
    | none => simp [eligibleCandidates, List.mem_filter, hq]
    | some q =>
      simp only [eligibleCandidates, hq, List.mem_filter, beq_iff_eq,
        Option.some.injEq]
      constructor
      · rintro ⟨⟨hmem2, htype⟩, hqual⟩
        exact ⟨hmem2, htype, fun q' hq' => hq' ▸ hqual⟩
      · rintro ⟨hmem2, htype, hqual⟩
        exact ⟨⟨hmem2, htype⟩, hqual q rfl⟩
  · intro h
    simp only [getSortedProviders, h]
    exact ⟨sortByKey_sorted _ _, fun k => sortByKey_filter _ _ k⟩
  · intro h
    simp only [getSortedProviders, h]
    exact ⟨sortByKey_sorted _ _, fun k => sortByKey_filter _ _ k⟩
  · intro h
    simp only [getSortedProviders, h]
    exact ⟨sortByKey_sorted _ _, fun k => sortByKey_filter _ _ k⟩

/-- C3 witness: the cost-strategy conjunct applied to a concrete catalog. -/
theorem c3_candidate_selection_witness :
    (getSortedProviders wCfg wReq).Sorted (keyLe (fun c => c.model.cost)) ∧
    (getSortedProviders wCfg wReq).filter (fun c => decide (c.model.cost = 0)) =
      (eligibleCandidates wCfg wReq).filter (fun c => decide (c.model.cost = 0)) :=
  ⟨((c3_candidate_selection wCfg wReq).2.2.1 rfl).1,
   ((c3_candidate_selection wCfg wReq).2.2.1 rfl).2 0⟩

/-- Splitting at a separator character that the left parts avoid is
unambiguous. -/
theorem sep_split_inj (sep : Char) :
    ∀ (a1 : List Char) (b1 : List Char) (a2 : List Char) (b2 : List Char),
      sep ∉ a1 → sep ∉ a2 → a1 ++ sep :: b1 = a2 ++ sep :: b2 →
      a1 = a2 ∧ b1 = b2 := by
  intro a1
  induction a1 with
  | nil =>
    intro b1 a2 b2 _ h2 heq
    cases a2 with
    | nil => simpa using heq
    | cons x a2' =>
      simp only [List.nil_append, List.cons_append, List.cons.injEq] at heq
      exact absurd (heq.1 ▸ List.mem_cons_self x a2') h2
  | cons x a1' ih =>
    intro b1 a2 b2 h1 h2 heq
    cases a2 with
    | nil =>
      simp only [List.cons_append, List.nil_append, List.cons.injEq] at heq
      exact absurd (heq.1 ▸ List.mem_cons_self x a1') h1
    | cons y a2' =>
      simp only [List.cons_append, List.cons.injEq] at heq
      have h1' : sep ∉ a1' := fun hmem => h1 (List.mem_cons_of_mem _ hmem)
      have h2' : sep ∉ a2' := fun hmem => h2 (List.mem_cons_of_mem _ hmem)
      rcases ih b1 a2' b2 h1' h2' heq.2 with ⟨ha, hb⟩
      exact ⟨by rw [heq.1, ha], hb⟩

/-- C5 counterexample: the claim's injectivity fails even under a
collision-free (injective) hash — here the identity function — because
the `-` separator is ambiguous: the distinct pairs ("a-b", "c") and
("a", "b-c") derive the same orchestrator job id. -/
theorem c5_jobid_counterexample :
    createOrchestratorJobId id "a-b" "c" = createOrchestratorJobId id "a" "b-c" ∧
    ¬ (("a-b", "c") = (("a", "b-c") : String × String)) := by
  exact ⟨rfl, by decide⟩

/-- C5 amended: the derivation is a pure deterministic function of the
pair (the right-to-left direction), and it is injective on pairs whose
provider names contain no `-`; with a hyphen in a provider name two
distinct pairs can collide (see the counterexample). -/
theorem c5_jobid_derivation (hash : String → String) (hinj : Function.Injective hash)
    (p1 j1 p2 j2 : String) (hp1 : '-' ∉ p1.data) (hp2 : '-' ∉ p2.data) :
    createOrchestratorJobId hash p1 j1 = createOrchestratorJobId hash p2 j2 ↔
      (p1 = p2 ∧ j1 = j2) := by
  constructor
  · intro h
    have hs : p1 ++ "-" ++ j1 = p2 ++ "-" ++ j2 := hinj h
    have hd : p1.data ++ '-' :: j1.data = p2.data ++ '-' :: j2.data := by
      have := congrArg String.data hs
      simpa [String.data_append] using this
    rcases sep_split_inj '-' p1.data j1.data p2.data j2.data hp1 hp2 hd with ⟨ha, hb⟩
    exact ⟨String.ext ha, String.ext hb⟩
  · rintro ⟨rfl, rfl⟩
    rfl

/-- C5 witness: the amended theorem applied at a concrete injective hash
and concrete hyphen-free provider names. -/
theorem c5_jobid_derivation_witness :
    createOrchestratorJobId id "openai" "j1" = createOrchestratorJobId id "openai" "j1" ↔
      (("openai" : String) = "openai" ∧ ("j1" : String) = "j1") :=
  c5_jobid_derivation id (fun _ _ h => h) "openai" "j1" "openai" "j1"
    (by decide) (by decide)

/-- A falsy accumulator is carried unchanged through the rest of the
walk (`acc && acc[part]` short-circuits). -/
theorem foldl_jsAndGet_falsy (v : JValue) (h : v.falsy = true) :
    ∀ segs : List String, segs.foldl jsAndGet v = v := by
  intro segs
  induction segs with
  | nil => rfl
  | cons s rest ih =>
    have hstep : jsAndGet v s = v := by simp [jsAndGet, h]
    calc (s :: rest).foldl jsAndGet v = rest.foldl jsAndGet (jsAndGet v s) := rfl
      _ = rest.foldl jsAndGet v := by rw [hstep]
      _ = v := ih

/-- C7 counterexample: with response `{a: null}` and path `a.b` the
segment `b` is missing from the intermediate, yet the extractor yields
`null`, not `undefined` — `acc && acc[part]` short-circuits to the falsy
value itself. -/
theorem c7_extractor_counterexample :
    getNestedProperty (JValue.obj [("a", JValue.null)]) "a.b" = JValue.null ∧
    getNestedProperty (JValue.obj [("a", JValue.null)]) "a.b" ≠ JValue.undef := by
  refine ⟨rfl, ?_⟩
  intro h
  rw [show getNestedProperty (JValue.obj [("a", JValue.null)]) "a.b" = JValue.null
    from rfl] at h
  exact JValue.noConfusion h

/-- C7 amended: the extractor walks segment by segment and
short-circuits on any falsy intermediate, returning that value — in
particular a property miss on a non-falsy intermediate yields
`undefined` (a `null`/`0`/`""`/`false` intermediate is returned as
itself, not as `undefined`); with no (truthy) configured path the
fallback is the conventional `data || text` fields; and `generate`
returns a completed result only when the extracted value is a string —
every non-string extraction gives a failed result whose error cites the
provider-level configured extractor path. -/
theorem c7_response_extraction :
    (∀ (obj : JValue) (path : String) (pre : List String) (s : String) (post : List String),
      splitSegs path = pre ++ s :: post →
      (pre.foldl jsAndGet obj).falsy = false →
      JValue.get (pre.foldl jsAndGet obj) s = JValue.undef →
      getNestedProperty obj path = JValue.undef) ∧
    (∀ (obj : JValue) (path : String) (pre post : List String),
      splitSegs path = pre ++ post →
      (pre.foldl jsAndGet obj).falsy = true →
      getNestedProperty obj path = pre.foldl jsAndGet obj) ∧
    (∀ (cfg : ProviderConfig) (modelId : String) (rd : JValue),
      truthyOpt (responseExtractorOf cfg modelId) = false →
      ((rd.get "data").falsy = false → extractData cfg modelId rd = rd.get "data") ∧
      ((rd.get "data").falsy = true → extractData cfg modelId rd = rd.get "text")) ∧
    (∀ (cfg : ProviderConfig) (modelId : String) (rd : JValue),
      (∀ s, extractData cfg modelId rd ≠ JValue.str s) →
      processResponse cfg modelId rd =
        { status := Status.failed, provider := cfg.name, model := modelId,
          error := JValue.str (notAStringMsg cfg) }) ∧
    (∀ (cfg : ProviderConfig) (modelId : String) (st : HealthStatus) (now : Int)
        (probeOk : Bool) (rd : JValue),
      (customGenerate cfg modelId st now probeOk (Except.ok rd)).1.status = Status.completed →
      ∃ s, extractData cfg modelId rd = JValue.str s) := by
  refine ⟨?_, ?_, ?_, ?_, ?_⟩
  · intro obj path pre s post hsplit hfalsy hget
    have h1 : getNestedProperty obj path = post.foldl jsAndGet (jsAndGet (pre.foldl jsAndGet obj) s) := by
      rw [getNestedProperty, hsplit, List.foldl_append]
      rfl
    rw [h1]
    have h2 : jsAndGet (pre.foldl jsAndGet obj) s = JValue.undef := by
      rw [jsAndGet, if_neg (by simp [hfalsy])]
      exact hget
    rw [h2]
    exact foldl_jsAndGet_falsy JValue.undef rfl post
  · intro obj path pre post hsplit hfalsy
    rw [getNestedProperty, hsplit, List.foldl_append]
    exact foldl_jsAndGet_falsy _ hfalsy post
  · intro cfg modelId rd hre
    cases hr : responseExtractorOf cfg modelId with
    | none =>
      constructor
      · intro hd
        simp [extractData, hr, jsOrJ, hd]
      · intro hd
        simp [extractData, hr, jsOrJ, hd]
    | some p =>
      have hp : p.isEmpty = true := by
        rw [hr] at hre
        simpa [truthyOpt] using hre
      constructor
      · intro hd
        simp [extractData, hr, hp, jsOrJ, hd]
      · intro hd
        simp [extractData, hr, hp, jsOrJ, hd]
  · intro cfg modelId rd hns
    cases hx : extractData cfg modelId rd with
    | str s => exact absurd hx (hns s)
    | undef => simp [processResponse, hx]
    | null => simp [processResponse, hx]
    | bool b => simp [processResponse, hx]
    | num q => simp [processResponse, hx]
    | arr l => simp [processResponse, hx]
    | obj fs => simp [processResponse, hx]
  · intro cfg modelId st now probeOk rd hcomp
    by_cases hh : (checkHealth cfg.healthCheckEndpoint st now probeOk).1 = true
    · have h1 : (customGenerate cfg modelId st now probeOk (Except.ok rd)).1 =
          processResponse cfg modelId rd := by
        simp [customGenerate, hh]
      rw [h1] at hcomp
      cases hx : extractData cfg modelId rd with
      | str s => exact ⟨s, rfl⟩
      | undef => simp [processResponse, hx] at hcomp
      | null => simp [processResponse, hx] at hcomp
      | bool b => simp [processResponse, hx] at hcomp
      | num q => simp [processResponse, hx] at hcomp
      | arr l => simp [processResponse, hx] at hcomp
      | obj fs => simp [processResponse, hx] at hcomp
    · have h1 : (customGenerate cfg modelId st now probeOk (Except.ok rd)).1.status =
          Status.failed := by
        simp only [Bool.not_eq_true] at hh
        simp [customGenerate, hh]
      rw [h1] at hcomp
      exact absurd hcomp (by simp)

/-- A concrete custom-provider configuration for the witnesses. -/
def wCustomCfg : ProviderConfig :=
  { name := "custom", apiKey := "", models := [], responseExtractor := some "data" }

/-- The witness response object `{data: 1}`. -/
def wNumResponse : JValue := JValue.obj [("data", JValue.num 1)]

/-- C7 witness: the short-circuit conjunct applied at a concrete response
object (`{choices: [{}]}` with a missing `message` key) and the
non-string conjunct at a concrete numeric extraction. -/
theorem c7_response_extraction_witness :
    getNestedProperty (JValue.obj [("choices", JValue.arr [JValue.obj []])])
      "choices[0].message.content" = JValue.undef ∧
    processResponse wCustomCfg "m" wNumResponse =
      { status := Status.failed, provider := "custom", model := "m",
        error := JValue.str
          "Response extractor path \"data\" did not yield a string." } := by
  constructor
  · exact c7_response_extraction.1 (JValue.obj [("choices", JValue.arr [JValue.obj []])])
      "choices[0].message.content" ["choices", "0"] "message" ["content"] rfl rfl rfl
  · have hx : extractData wCustomCfg "m" wNumResponse = JValue.num 1 := rfl
    refine (c7_response_extraction.2.2.2.1 wCustomCfg "m" wNumResponse ?_).trans rfl
    intro s h
    rw [hx] at h
    exact JValue.noConfusion h

theorem checkHealth_noEndpoint (ep : Option String) (st : HealthStatus) (now : Int)
    (probeOk : Bool) (hep : truthyOpt ep = false) :
    checkHealth ep st now probeOk = (true, st, false) := by
  simp [checkHealth, hep]

theorem checkHealth_fresh (ep : Option String) (st : HealthStatus) (now : Int)
    (probeOk : Bool) (hep : truthyOpt ep = true)
    (hfresh : now - st.lastChecked < healthCacheTTL) :
    checkHealth ep st now probeOk = (st.isHealthy, st, false) := by
  cases hh : st.isHealthy with
  | true => simp [checkHealth, hep, hfresh, hh]
  | false => simp [checkHealth, hep, hfresh, hh]

theorem checkHealth_stale (ep : Option String) (st : HealthStatus) (now : Int)
    (probeOk : Bool) (hep : truthyOpt ep = true)
    (hstale : healthCacheTTL ≤ now - st.lastChecked) :
    checkHealth ep st now probeOk = (probeOk, ⟨probeOk, now⟩, true) := by
  have hfresh : ¬ (now - st.lastChecked < healthCacheTTL) := not_lt.mpr hstale
  simp [checkHealth, hep, hfresh]

/-- C6: with a configured health-check path a call probes iff the cached
entry is at least the TTL old (the cached boolean, healthy or not, is
reused while younger); a probe's outcome is cached with the call's
timestamp and returned; with no (truthy) configured path the backend is
always healthy and no probe is ever issued; two calls within one TTL
window issue exactly one probe and a call after TTL expiry issues a
second; and `generate` is gated on the boolean — unhealthy yields the
failed "unhealthy or unreachable" result, healthy proceeds to the
response processing. -/
theorem c6_health_gate :
    (∀ (ep : Option String) (st : HealthStatus) (now : Int) (probeOk : Bool),
      (checkHealth ep st now probeOk).2.2 = true ↔
        (truthyOpt ep = true ∧ healthCacheTTL ≤ now - st.lastChecked)) ∧
    (∀ (ep : Option String) (st : HealthStatus) (now : Int) (probeOk : Bool),
      truthyOpt ep = false → checkHealth ep st now probeOk = (true, st, false)) ∧
    (∀ (ep : Option String) (st : HealthStatus) (now : Int) (probeOk : Bool),
      truthyOpt ep = true → now - st.lastChecked < healthCacheTTL →
      checkHealth ep st now probeOk = (st.isHealthy, st, false)) ∧
    (∀ (ep : Option String) (st : HealthStatus) (now : Int) (probeOk : Bool),
      truthyOpt ep = true → healthCacheTTL ≤ now - st.lastChecked →
      checkHealth ep st now probeOk = (probeOk, ⟨probeOk, now⟩, true)) ∧
    (∀ (ep : Option String) (st : HealthStatus) (t1 t2 : Int) (b1 b2 : Bool),
      truthyOpt ep = true → healthCacheTTL ≤ t1 - st.lastChecked →
      t2 - t1 < healthCacheTTL →
      (runHealthCalls ep st [(t1, b1), (t2, b2)]).2 = 1) ∧
    (∀ (ep : Option String) (st : HealthStatus) (t1 t2 t3 : Int) (b1 b2 b3 : Bool),
      truthyOpt ep = true → healthCacheTTL ≤ t1 - st.lastChecked →
      t2 - t1 < healthCacheTTL → healthCacheTTL ≤ t3 - t1 →
      (runHealthCalls ep st [(t1, b1), (t2, b2), (t3, b3)]).2 = 2) ∧
    (∀ (ep : Option String) (st : HealthStatus) (calls : List (Int × Bool)),
      truthyOpt ep = false → (runHealthCalls ep st calls).2 = 0) ∧
    (∀ (cfg : ProviderConfig) (modelId : String) (st : HealthStatus) (now : Int)
        (probeOk : Bool) (fetchResult : Except String JValue),
      (checkHealth cfg.healthCheckEndpoint st now probeOk).1 = false →
      (customGenerate cfg modelId st now probeOk fetchResult).1 =
        { status := Status.failed, provider := cfg.name, model := modelId,
          error := JValue.str unhealthyMsg }) ∧
    (∀ (cfg : ProviderConfig) (modelId : String) (st : HealthStatus) (now : Int)
        (probeOk : Bool) (rd : JValue),
      (checkHealth cfg.healthCheckEndpoint st now probeOk).1 = true →
      (customGenerate cfg modelId st now probeOk (Except.ok rd)).1 =
        processResponse cfg modelId rd) := by
  refine ⟨?_, checkHealth_noEndpoint, checkHealth_fresh, checkHealth_stale,
    ?_, ?_, ?_, ?_, ?_⟩
  · intro ep st now probeOk
    by_cases hep : truthyOpt ep = true
    · by_cases hfresh : now - st.lastChecked < healthCacheTTL
      · rw [checkHealth_fresh ep st now probeOk hep hfresh]
        simp [hep]
        omega
      · rw [checkHealth_stale ep st now probeOk hep (not_lt.mp hfresh)]
        simp [hep]
        omega
    · simp only [Bool.not_eq_true] at hep
      rw [checkHealth_noEndpoint ep st now probeOk hep]
      simp [hep]
  · intro ep st t1 t2 b1 b2 hep h1 h2
    have e1 := checkHealth_stale ep st t1 b1 hep h1
    have e2 : checkHealth ep ⟨b1, t1⟩ t2 b2 = (b1, ⟨b1, t1⟩, false) :=
      checkHealth_fresh ep ⟨b1, t1⟩ t2 b2 hep (by simpa using h2)
    simp [runHealthCalls, e1, e2]
  · intro ep st t1 t2 t3 b1 b2 b3 hep h1 h2 h3
    have e1 := checkHealth_stale ep st t1 b1 hep h1
    have e2 : checkHealth ep ⟨b1, t1⟩ t2 b2 = (b1, ⟨b1, t1⟩, false) :=
      checkHealth_fresh ep ⟨b1, t1⟩ t2 b2 hep (by simpa using h2)
    have e3 : checkHealth ep ⟨b1, t1⟩ t3 b3 = (b3, ⟨b3, t3⟩, true) :=
      checkHealth_stale ep ⟨b1, t1⟩ t3 b3 hep (by simpa using h3)
    simp [runHealthCalls, e1, e2, e3]
  · intro ep st calls hep
    induction calls generalizing st with
    | nil => rfl
    | cons c rest ih =>
      rcases c with ⟨now, probeOk⟩
      simp [runHealthCalls, checkHealth_noEndpoint ep st now probeOk hep, ih]
  · intro cfg modelId st now probeOk fetchResult hh
    simp [customGenerate, hh]
  · intro cfg modelId st now probeOk rd hh
    simp [customGenerate, hh]

/-- C6 witness: from the initial cache `{isHealthy := false, lastChecked := 0}`,
two calls inside one TTL window issue exactly one probe. -/
theorem c6_health_gate_witness :
    (runHealthCalls (some "/health") ⟨false, 0⟩ [(100000, true), (120000, true)]).2 = 1 :=
  c6_health_gate.2.2.2.2.1 (some "/health") ⟨false, 0⟩ 100000 120000 true true
    (by decide) (by decide) (by decide)

/-- A plain prompt character: not a quote, backslash or brace, and not a
control character — such characters pass through `JSON.stringify`
verbatim and can never create or complete a placeholder or a JSON
delimiter. -/
def plainChar (c : Char) : Bool :=
  !(c == '\"') && !(c == '\\') && !(c == '\x7b') && !(c == '\x7d') &&
    decide (32 ≤ c.toNat)

theorem plainChar_spec {c : Char} (h : plainChar c = true) :
    ¬ (c = '\"') ∧ ¬ (c = '\\') ∧ ¬ (c = '\x7b') ∧ ¬ (c = '\x7d') ∧ 32 ≤ c.toNat := by
  simpa [plainChar, and_assoc] using h

theorem escapeJsonChar_plain {c : Char} (h : plainChar c = true) :
    escapeJsonChar c = [c] := by
  obtain ⟨h1, h2, _, _, h5⟩ := plainChar_spec h
  have e8 : ¬ (c = Char.ofNat 8) := by
    intro he
    rw [he] at h5
    exact absurd h5 (by decide)
  have e9 : ¬ (c = '\t') := by
    intro he
    rw [he] at h5
    exact absurd h5 (by decide)
  have e10 : ¬ (c = '\n') := by
    intro he
    rw [he] at h5
    exact absurd h5 (by decide)
  have e12 : ¬ (c = Char.ofNat 12) := by
    intro he
    rw [he] at h5
    exact absurd h5 (by decide)
  have e13 : ¬ (c = '\r') := by
    intro he
    rw [he] at h5
    exact absurd h5 (by decide)
  have hlt : ¬ (c.toNat < 32) := by omega
  simp [escapeJsonChar, h1, h2, e8, e9, e10, e12, e13, hlt]

theorem flatMap_escape_plain (l : List Char) (h : ∀ c ∈ l, plainChar c = true) :
    l.flatMap escapeJsonChar = l := by
  induction l with
  | nil => rfl
  | cons c l' ih =>
    rw [List.flatMap_cons, escapeJsonChar_plain (h c (List.mem_cons_self _ _)),
      ih (fun c' hc' => h c' (List.mem_cons_of_mem _ hc'))]
    rfl

theorem jsonStringifyString_plain (s : String)
    (h : ∀ c ∈ s.data, plainChar c = true) :
    jsonStringifyString s = String.mk ('\"' :: (s.data ++ ['\"'])) := by
  unfold jsonStringifyString
  rw [flatMap_escape_plain s.data h]

theorem parseStringBody_plain (P rest : List Char)
    (h : ∀ c ∈ P, plainChar c = true) :
    parseStringBody (P ++ '\"' :: rest) = some (P, rest) := by
  induction P with
  | nil =>
    rw [List.nil_append, parseStringBody.eq_def]
    simp
  | cons c P' ih =>
    obtain ⟨h1, h2, _, _, h5⟩ := plainChar_spec (h c (List.mem_cons_self _ _))
    have h3 : ¬ (c.toNat < 32) := by omega
    have ih2 := ih (fun c' hc' => h c' (List.mem_cons_of_mem _ hc'))
    rw [List.cons_append, parseStringBody.eq_def]
    simp [h1, h2, h3, ih2]

/-- Whether `pat` occurs (as a contiguous segment) in a character list. -/
def occurs (pat : List Char) : List Char → Bool
  | [] => pat.isEmpty
  | s@(_ :: rest) => pat.isPrefixOf s || occurs pat rest

theorem getSubstitution_no_dollar (matched before after rep : List Char)
    (h : ∀ c ∈ rep, ¬ (c = '$')) :
    getSubstitution matched before after rep = rep := by
  induction rep with
  | nil => rfl
  | cons c r ih =>
    have hc : ¬ (c = '$') := h c (List.mem_cons_self _ _)
    rw [getSubstitution.eq_def]
    simp [hc, ih (fun c' hc' => h c' (List.mem_cons_of_mem _ hc'))]

theorem replaceAllAux_no_occur (pat rep : List Char) {s : List Char}
    (h : occurs pat s = false) :
    ∀ fuel pre, replaceAllAux pat rep fuel pre s = s := by
  intro fuel
  induction fuel generalizing s with
  | zero => intro pre; rfl
  | succ fuel ih =>
    intro pre
    cases s with
    | nil => rfl
    | cons c rest =>
      have h2 : pat.isPrefixOf (c :: rest) = false ∧ occurs pat rest = false := by
        simpa [occurs] using h
      simp [replaceAllAux, h2.1, ih h2.2]

theorem replaceAllAux_walk (pat rep : List Char) :
    ∀ (xs ys : List Char) (fuel : Nat) (pre : List Char), xs.length ≤ fuel →
      (∀ i, i < xs.length → pat.isPrefixOf (xs.drop i ++ ys) = false) →
      replaceAllAux pat rep fuel pre (xs ++ ys) =
        xs ++ replaceAllAux pat rep (fuel - xs.length) (pre ++ xs) ys := by
  intro xs
  induction xs with
  | nil => intro ys fuel pre _ _; simp
  | cons c xs' ih =>
    intro ys fuel pre hfuel hno
    cases fuel with
    | zero => exact absurd hfuel (by simp)
    | succ fuel' =>
      have h0 : pat.isPrefixOf (c :: (xs' ++ ys)) = false := by
        have := hno 0 (by simp)
        simpa using this
      rw [List.cons_append, replaceAllAux,
        if_neg (fun hcontra => by rw [hcontra] at h0; exact Bool.noConfusion h0)]
      have hrec := ih ys fuel' (pre ++ [c]) (by simpa using hfuel)
        (fun i hi => by simpa using hno (i + 1) (by simpa using Nat.succ_lt_succ hi))
      rw [hrec]
      simp [Nat.succ_sub_succ]

theorem replaceAllAux_match (pat rep zs : List Char) (hne : pat ≠ []) (fuel : Nat)
    (pre : List Char) :
    replaceAllAux pat rep (fuel + 1) pre (pat ++ zs) =
      getSubstitution pat pre zs rep ++ replaceAllAux pat rep fuel (pre ++ pat) zs := by
  have hpre : pat.isPrefixOf (pat ++ zs) = true := by
    simp [List.isPrefixOf_iff_prefix]
  cases hp : pat with
  | nil => exact absurd hp hne
  | cons p pt =>
    rw [← hp]
    rw [show pat ++ zs = pat.head hne :: (pat.tail ++ zs) by
      cases pat with
      | nil => exact absurd rfl hne
      | cons a l => rfl]
    rw [replaceAllAux]
    rw [show (pat.head hne :: (pat.tail ++ zs)) = pat ++ zs by
      cases pat with
      | nil => exact absurd rfl hne
      | cons a l => rfl]
    rw [if_pos hpre]
    rw [List.drop_left' (by rfl)]

theorem isPrefixOf_append_false (pat t ys : List Char)
    (h1 : t.length < pat.length → (pat.take t.length == t) = false)
    (h2 : ¬ (t.length < pat.length) → pat.isPrefixOf t = false) :
    pat.isPrefixOf (t ++ ys) = false := by
  cases hp : pat.isPrefixOf (t ++ ys) with
  | false => rfl
  | true =>
    exfalso
    rcases List.isPrefixOf_iff_prefix.mp hp with ⟨u, hu⟩
    by_cases hlen : t.length < pat.length
    · have htake : pat.take t.length = t := by
        have h' : (pat ++ u).take t.length = (t ++ ys).take t.length := by rw [hu]
        rw [List.take_append_of_le_length (Nat.le_of_lt hlen), List.take_left] at h'
        exact h'
      have := h1 hlen
      rw [htake] at this
      simp at this
    · have hle : pat.length ≤ t.length := Nat.le_of_not_lt hlen
      have hpt : pat <+: t := by
        have h' : (pat ++ u).take pat.length = (t ++ ys).take pat.length := by rw [hu]
        rw [List.take_left, List.take_append_of_le_length hle] at h'
        rw [h']
        exact List.take_prefix _ _
      have := List.isPrefixOf_iff_prefix.mpr hpt
      rw [h2 hlen] at this
      exact Bool.noConfusion this

/-- A decidable packaging of "no occurrence of `pat` can start inside
`xs`, whatever follows": for every start position either the remaining
concrete characters already mismatch (long case), or the spanning prefix
of `pat` fails to line up (short case). -/
theorem spans_false_of (pat xs : List Char)
    (h : ∀ i, i < xs.length →
      ((xs.drop i).length < pat.length →
        (pat.take (xs.drop i).length == xs.drop i) = false) ∧
      (¬ ((xs.drop i).length < pat.length) →
        pat.isPrefixOf (xs.drop i) = false)) :
    ∀ (ys : List Char) (i : Nat), i < xs.length →
      pat.isPrefixOf (xs.drop i ++ ys) = false := by
  intro ys i hi
  exact isPrefixOf_append_false pat (xs.drop i) ys (h i hi).1 (h i hi).2

theorem occurs_concat_false (pat : List Char) :
    ∀ (xs m : List Char),
      (∀ i, i < xs.length → pat.isPrefixOf (xs.drop i ++ m) = false) →
      occurs pat m = false →
      occurs pat (xs ++ m) = false := by
  intro xs
  induction xs with
  | nil => intro m _ hm; simpa using hm
  | cons c xs' ih =>
    intro m hspan hm
    have h0 : pat.isPrefixOf (c :: (xs' ++ m)) = false := by
      have := hspan 0 (by simp)
      simpa using this
    have hrest := ih m
      (fun i hi => by simpa using hspan (i + 1) (Nat.succ_lt_succ hi)) hm
    simp [occurs, h0, hrest]

theorem occurs_skip (pat : List Char) (hd : Char) (tl : List Char)
    (hpat : pat = hd :: tl) (P ys : List Char) (hP : ∀ c ∈ P, ¬ (c = hd)) :
    occurs pat (P ++ ys) = occurs pat ys := by
  induction P with
  | nil => simp
  | cons c P' ih =>
    have hc : (hd == c) = false := by
      simp only [beq_eq_false_iff_ne, ne_eq]
      intro he
      exact hP c (List.mem_cons_self _ _) he.symm
    have hpre : pat.isPrefixOf (c :: (P' ++ ys)) = false := by
      rw [hpat]
      simp [List.isPrefixOf, hc]
    have ihr := ih (fun c' hc' => hP c' (List.mem_cons_of_mem _ hc'))
    simp [occurs, hpre, ihr]

/-- No placeholder pattern (they all start with a quote-then-brace or a
brace) can occur in the quoted plain prompt region. -/
theorem occurs_mid_false (pat : List Char) (hd : Char) (tl : List Char)
    (hpat : pat = hd :: tl)
    (hhd : hd = '\"' ∨ hd = '\x7b')
    (hsnd : hd = '\"' → ∃ tt, tl = '\x7b' :: tt)
    (P zs : List Char) (hP : ∀ c ∈ P, plainChar c = true)
    (hzs : occurs pat ('\"' :: zs) = false) :
    occurs pat ('\"' :: (P ++ '\"' :: zs)) = false := by
  have hPhd : ∀ c ∈ P, ¬ (c = hd) := by
    intro c hc he
    obtain ⟨p1, _, p3, _, _⟩ := plainChar_spec (hP c hc)
    rcases hhd with h | h
    · exact p1 (he.trans h)
    · exact p3 (he.trans h)
  have hskip : occurs pat (P ++ '\"' :: zs) = occurs pat ('\"' :: zs) :=
    occurs_skip pat hd tl hpat P ('\"' :: zs) hPhd
  have hpre1 : pat.isPrefixOf ('\"' :: (P ++ '\"' :: zs)) = false := by
    rcases hhd with h | h
    · obtain ⟨tt, htl⟩ := hsnd h
      rw [hpat, h, htl]
      cases P with
      | nil => simp [List.isPrefixOf]
      | cons c P' =>
        obtain ⟨_, _, p3, _, _⟩ := plainChar_spec (hP c (List.mem_cons_self _ _))
        have hc : ('\x7b' == c) = false := by
          simp only [beq_eq_false_iff_ne, ne_eq]
          intro he
          exact p3 he.symm
        simp [List.isPrefixOf, hc]
    · rw [hpat, h]
      simp [List.isPrefixOf]
  rw [show occurs pat ('\"' :: (P ++ '\"' :: zs)) =
      (pat.isPrefixOf ('\"' :: (P ++ '\"' :: zs)) || occurs pat (P ++ '\"' :: zs))
    from rfl]
  rw [hpre1, hskip, hzs]
  rfl

theorem jsReplaceAll_noop (s pat rep : String) (h : occurs pat.data s.data = false) :
    jsReplaceAll s pat rep = s := by
  unfold jsReplaceAll
  rw [replaceAllAux_no_occur pat.data rep.data h]

theorem jsReplaceAll_single (s pat rep : String) (A B : List Char)
    (hs : s.data = A ++ (pat.data ++ B))
    (hne : pat.data ≠ [])
    (hspan : ∀ i, i < A.length →
      pat.data.isPrefixOf (A.drop i ++ (pat.data ++ B)) = false)
    (hB : occurs pat.data B = false) :
    jsReplaceAll s pat rep =
      String.mk (A ++ (getSubstitution pat.data A B rep.data ++ B)) := by
  unfold jsReplaceAll
  rw [hs]
  rw [replaceAllAux_walk pat.data rep.data A (pat.data ++ B)
    (A ++ (pat.data ++ B)).length [] (by simp) hspan]
  rw [List.nil_append]
  have hone : 1 ≤ pat.data.length := by
    cases hp : pat.data with
    | nil => exact absurd hp hne
    | cons a l => simp
  have hfuel : (A ++ (pat.data ++ B)).length - A.length =
      (B.length + (pat.data.length - 1)) + 1 := by
    simp only [List.length_append]
    omega
  rw [hfuel, replaceAllAux_match pat.data rep.data B hne]
  rw [replaceAllAux_no_occur pat.data rep.data hB]

/-- The characters of the round-trip template before the quoted prompt
placeholder (after `{{model}}` substitution):
`[{ "role": "user", "content": `. -/
def promptA0 : List Char :=
  ['[', '\x7b', ' ', '\"', 'r', 'o', 'l', 'e', '\"', ':', ' ', '\"', 'u', 's', 'e',
   'r', '\"', ',', ' ', '\"', 'c', 'o', 'n', 't', 'e', 'n', 't', '\"', ':', ' ']

/-- The characters after it: `, "model": "custom-model-1" }]`. -/
def promptB0 : List Char :=
  [',', ' ', '\"', 'm', 'o', 'd', 'e', 'l', '\"', ':', ' ', '\"', 'c', 'u', 's',
   't', 'o', 'm', '-', 'm', 'o', 'd', 'e', 'l', '-', '1', '\"', ' ', '\x7d', ']']

/-- Parsing the rendered body succeeds for every plain prompt `P` and
yields exactly the direct-substitution payload. -/
theorem parseValue_rendered (P : List Char) (hP : ∀ c ∈ P, plainChar c = true) (n : Nat) :
    parseValue (n + 10) (promptA0 ++ '\"' :: (P ++ '\"' :: promptB0)) =
      some (JValue.arr [JValue.obj [("role", JValue.str "user"),
        ("content", JValue.str (String.mk P)), ("model", JValue.str "custom-model-1")]],
        []) := by
  have hrole : ∀ rest : List Char,
      parseStringBody ('r' :: 'o' :: 'l' :: 'e' :: '\"' :: rest) =
        some (['r', 'o', 'l', 'e'], rest) := fun rest => by
    simpa using parseStringBody_plain ['r', 'o', 'l', 'e'] rest (by decide)
  have huser : ∀ rest : List Char,
      parseStringBody ('u' :: 's' :: 'e' :: 'r' :: '\"' :: rest) =
        some (['u', 's', 'e', 'r'], rest) := fun rest => by
    simpa using parseStringBody_plain ['u', 's', 'e', 'r'] rest (by decide)
  have hcontent : ∀ rest : List Char,
      parseStringBody ('c' :: 'o' :: 'n' :: 't' :: 'e' :: 'n' :: 't' :: '\"' :: rest) =
        some (['c', 'o', 'n', 't', 'e', 'n', 't'], rest) := fun rest => by
    simpa using parseStringBody_plain ['c', 'o', 'n', 't', 'e', 'n', 't'] rest (by decide)
  have hmodel : ∀ rest : List Char,
      parseStringBody ('m' :: 'o' :: 'd' :: 'e' :: 'l' :: '\"' :: rest) =
        some (['m', 'o', 'd', 'e', 'l'], rest) := fun rest => by
    simpa using parseStringBody_plain ['m', 'o', 'd', 'e', 'l'] rest (by decide)
  have hcm : ∀ rest : List Char,
      parseStringBody ('c' :: 'u' :: 's' :: 't' :: 'o' :: 'm' :: '-' :: 'm' :: 'o'
          :: 'd' :: 'e' :: 'l' :: '-' :: '1' :: '\"' :: rest) =
        some (['c', 'u', 's', 't', 'o', 'm', '-', 'm', 'o', 'd', 'e', 'l', '-', '1'],
          rest) := fun rest => by
    simpa using parseStringBody_plain
      ['c', 'u', 's', 't', 'o', 'm', '-', 'm', 'o', 'd', 'e', 'l', '-', '1'] rest
      (by decide)
  have hPs : parseStringBody (P ++ '\"' :: promptB0) = some (P, promptB0) :=
    parseStringBody_plain P promptB0 hP
  simp only [promptB0] at hPs
  have e1 : String.mk ['r', 'o', 'l', 'e'] = "role" := rfl
  have e2 : String.mk ['u', 's', 'e', 'r'] = "user" := rfl
  have e3 : String.mk ['c', 'o', 'n', 't', 'e', 'n', 't'] = "content" := rfl
  have e4 : String.mk ['m', 'o', 'd', 'e', 'l'] = "model" := rfl
  have e5 : String.mk ['c', 'u', 's', 't', 'o', 'm', '-', 'm', 'o', 'd', 'e', 'l',
      '-', '1'] = "custom-model-1" := rfl
  simp [promptA0, promptB0, parseValue, parseElems, parseFields, skipWs, isJsonWs,
    hrole, huser, hcontent, hmodel, hcm, hPs, e1, e2, e3, e4, e5]

/-- None of the placeholder patterns occurs in the rendered body: they
cannot start inside the concrete pieces (checked positionally), nor
inside the quoted plain prompt. -/
theorem occurs_rendered_false (pat : String) (P : List Char)
    (hP : ∀ c ∈ P, plainChar c = true)
    (hshape : (∃ tt, pat.data = '\"' :: '\x7b' :: tt) ∨ ∃ tt, pat.data = '\x7b' :: tt)
    (hspanA : ∀ i, i < promptA0.length →
      ((promptA0.drop i).length < pat.data.length →
        (pat.data.take (promptA0.drop i).length == promptA0.drop i) = false) ∧
      (¬ ((promptA0.drop i).length < pat.data.length) →
        pat.data.isPrefixOf (promptA0.drop i) = false))
    (hzs : occurs pat.data ('\"' :: promptB0) = false) :
    occurs pat.data (promptA0 ++ '\"' :: (P ++ '\"' :: promptB0)) = false := by
  apply occurs_concat_false
  · exact spans_false_of pat.data promptA0 hspanA ('\"' :: (P ++ '\"' :: promptB0))
  · rcases hshape with ⟨tt, h⟩ | ⟨tt, h⟩
    · exact occurs_mid_false pat.data '\"' ('\x7b' :: tt) h (Or.inl rfl)
        (fun _ => ⟨tt, rfl⟩) P promptB0 hP hzs
    · exact occurs_mid_false pat.data '\x7b' tt h (Or.inr rfl)
        (fun hq => absurd hq (by decide)) P promptB0 hP hzs

/-- The template of the repository's round-trip test:
`[{ "role": "user", "content": "{{prompt}}", "model": "{{model}}" }]`. -/
def wTemplate : String :=
  "[\x7b \"role\": \"user\", \"content\": \"\x7b\x7bprompt\x7d\x7d\", \"model\": \"\x7b\x7bmodel\x7d\x7d\" \x7d]"

def wTemplateCfg : ProviderConfig :=
  { name := "custom", apiKey := "", baseUrl := some "http://localhost:8080",
    requestBodyTemplate := some wTemplate, responseExtractor := some "data",
    models := [] }

def wTemplateReq : GenerateRequest := { type := CType.text, prompt := "A test prompt" }

/-- The payload built by direct substitution:
`[{ role: 'user', content: 'A test prompt', model: 'custom-model-1' }]`. -/
def wDirectPayload : JValue :=
  JValue.arr [JValue.obj [("role", JValue.str "user"),
    ("content", JValue.str "A test prompt"),
    ("model", JValue.str "custom-model-1")]]

/-- The round-trip template after the concrete placeholder substitution
of the model id `custom-model-1` for `\x7b\x7bmodel\x7d\x7d`. -/
def wRenderedModelTemplate : String :=
  "[\x7b \"role\": \"user\", \"content\": \"\x7b\x7bprompt\x7d\x7d\", \"model\": \"custom-model-1\" \x7d]"

/-- Rendering the round-trip template with ANY plain prompt (no quote,
backslash, brace, or control character) that is also free of `$` — so
that `GetSubstitution` leaves the replacement text intact — parses to
exactly the direct-substitution payload. -/
theorem renderTemplate_plain (P : String)
    (hP : ∀ c ∈ P.data, plainChar c = true ∧ ¬ (c = '$'))
    (req : GenerateRequest) (hreq : req.prompt = P) :
    renderTemplate wTemplate req "custom-model-1" =
      Except.ok (JValue.arr [JValue.obj [("role", JValue.str "user"),
        ("content", JValue.str P), ("model", JValue.str "custom-model-1")]]) := by
  have hPp : ∀ c ∈ P.data, plainChar c = true := fun c hc => (hP c hc).1
  have hPd : ∀ c ∈ P.data, ¬ (c = '$') := fun c hc => (hP c hc).2
  have hP := hPp
  have hdata : (jsonStringifyString P).data = '\"' :: (P.data ++ ['\"']) := by
    rw [jsonStringifyString_plain P hPp]
  have hb0 : jsReplaceAll wTemplate "\x7b\x7bmodel\x7d\x7d" "custom-model-1" =
      wRenderedModelTemplate := rfl
  have hquote : ∀ c ∈ '\"' :: (P.data ++ ['\"']), ¬ (c = '$') := by
    intro c hc
    rcases List.mem_cons.mp hc with h | h
    · rw [h]; decide
    · rcases List.mem_append.mp h with h2 | h2
      · exact hPd c h2
      · rw [List.mem_singleton.mp h2]; decide
  have hb1 : jsReplaceAll wRenderedModelTemplate "\"\x7b\x7bprompt\x7d\x7d\""
      (jsonStringifyString P) =
      String.mk (promptA0 ++ '\"' :: (P.data ++ '\"' :: promptB0)) := by
    rw [jsReplaceAll_single wRenderedModelTemplate "\"\x7b\x7bprompt\x7d\x7d\""
      (jsonStringifyString P) promptA0 promptB0 (by decide) (by decide)
      (by decide) (by decide), hdata,
      getSubstitution_no_dollar _ promptA0 promptB0 _ hquote]
    congr 1
    simp
  have hnoop : ∀ (pat rep : String),
      occurs pat.data (promptA0 ++ '\"' :: (P.data ++ '\"' :: promptB0)) = false →
      jsReplaceAll (String.mk (promptA0 ++ '\"' :: (P.data ++ '\"' :: promptB0))) pat rep =
        String.mk (promptA0 ++ '\"' :: (P.data ++ '\"' :: promptB0)) :=
    fun pat rep h => jsReplaceAll_noop _ pat rep h
  have h2 : occurs ("\x7b\x7bprompt\x7d\x7d" : String).data
      (promptA0 ++ '\"' :: (P.data ++ '\"' :: promptB0)) = false :=
    occurs_rendered_false "\x7b\x7bprompt\x7d\x7d" P.data hP
      (Or.inr ⟨("\x7bprompt\x7d\x7d" : String).data, by decide⟩) (by decide) (by decide)
  have h3 : occurs ("\"\x7b\x7bsystemPrompt\x7d\x7d\"" : String).data
      (promptA0 ++ '\"' :: (P.data ++ '\"' :: promptB0)) = false :=
    occurs_rendered_false "\"\x7b\x7bsystemPrompt\x7d\x7d\"" P.data hP
      (Or.inl ⟨("\x7bsystemPrompt\x7d\x7d\"" : String).data, by decide⟩)
      (by decide) (by decide)
  have h4 : occurs ("\x7b\x7bsystemPrompt\x7d\x7d" : String).data
      (promptA0 ++ '\"' :: (P.data ++ '\"' :: promptB0)) = false :=
    occurs_rendered_false "\x7b\x7bsystemPrompt\x7d\x7d" P.data hP
      (Or.inr ⟨("\x7bsystemPrompt\x7d\x7d" : String).data, by decide⟩)
      (by decide) (by decide)
  have h5 : occurs ("\x7b\x7btemperature\x7d\x7d" : String).data
      (promptA0 ++ '\"' :: (P.data ++ '\"' :: promptB0)) = false :=
    occurs_rendered_false "\x7b\x7btemperature\x7d\x7d" P.data hP
      (Or.inr ⟨("\x7btemperature\x7d\x7d" : String).data, by decide⟩)
      (by decide) (by decide)
  have h6 : occurs ("\x7b\x7bmaxTokens\x7d\x7d" : String).data
      (promptA0 ++ '\"' :: (P.data ++ '\"' :: promptB0)) = false :=
    occurs_rendered_false "\x7b\x7bmaxTokens\x7d\x7d" P.data hP
      (Or.inr ⟨("\x7bmaxTokens\x7d\x7d" : String).data, by decide⟩)
      (by decide) (by decide)
  have h7 : occurs ("\x7b\x7btopP\x7d\x7d" : String).data
      (promptA0 ++ '\"' :: (P.data ++ '\"' :: promptB0)) = false :=
    occurs_rendered_false "\x7b\x7btopP\x7d\x7d" P.data hP
      (Or.inr ⟨("\x7btopP\x7d\x7d" : String).data, by decide⟩)
      (by decide) (by decide)
  have h30 : promptA0.length = 30 := rfl
  have h31 : promptB0.length = 30 := rfl
  have hge : 62 ≤ (promptA0 ++ '\"' :: (P.data ++ '\"' :: promptB0)).length := by
    simp only [List.length_append, List.length_cons]
    omega
  have hfe : 3 * (promptA0 ++ '\"' :: (P.data ++ '\"' :: promptB0)).length + 3 =
      (3 * (promptA0 ++ '\"' :: (P.data ++ '\"' :: promptB0)).length - 7) + 10 := by
    omega
  have hparse : parseJson (String.mk (promptA0 ++ '\"' :: (P.data ++ '\"' :: promptB0))) =
      some (JValue.arr [JValue.obj [("role", JValue.str "user"),
        ("content", JValue.str P), ("model", JValue.str "custom-model-1")]]) := by
    unfold parseJson
    rw [show (String.mk (promptA0 ++ '\"' :: (P.data ++ '\"' :: promptB0))).length =
        (promptA0 ++ '\"' :: (P.data ++ '\"' :: promptB0)).length from rfl,
      show (String.mk (promptA0 ++ '\"' :: (P.data ++ '\"' :: promptB0))).data =
        promptA0 ++ '\"' :: (P.data ++ '\"' :: promptB0) from rfl,
      hfe,
      parseValue_rendered P.data hP
        (3 * (promptA0 ++ '\"' :: (P.data ++ '\"' :: promptB0)).length - 7)]
    rfl
  simp only [renderTemplate, hreq]
  rw [hb0, hb1, hnoop _ _ h2, hnoop _ _ h3, hnoop _ _ h4, hnoop _ _ h5,
    hnoop _ _ h6, hnoop _ _ h7, hparse]

/-- C8 counterexample: the claim's universal quoted-substitution clause
fails, because the replacement string of `String.prototype.replace`
undergoes `GetSubstitution`. The prompt `a$$b` (every character plain)
renders a content field `a$b` — not the prompt itself — and the prompt
`a$'b` (every character plain) splices the post-match text into the
body via `$'`, making `JSON.parse` throw, so the rendered text is not
valid JSON at all. -/
theorem c8_counterexample :
    (∀ c ∈ ("a$$b" : String).data, plainChar c = true) ∧
    buildRequestBody wTemplateCfg { type := CType.text, prompt := "a$$b" } "custom-model-1" =
      Except.ok (JValue.arr [JValue.obj [("role", JValue.str "user"),
        ("content", JValue.str "a$b"), ("model", JValue.str "custom-model-1")]]) ∧
    ¬ (("a$b" : String) = "a$$b") ∧
    (∀ c ∈ ("a$'b" : String).data, plainChar c = true) ∧
    buildRequestBody wTemplateCfg { type := CType.text, prompt := "a$'b" } "custom-model-1" =
      Except.error "Unexpected token in JSON" :=
  ⟨by decide, rfl, by decide, by decide, rfl⟩

/-- C8 (amended): rendering the round-trip template with prompt
"A test prompt" and model "custom-model-1" parses to exactly the
direct-substitution payload (no stray quoting or escaping artifacts); a
non-empty per-model template takes precedence over the provider-level
template; with no (truthy) template the payload is the default
`{model, ...request}` shape; and in general, for every prompt made of
plain characters (no quote, backslash, brace, or control character)
that is also free of `$`, the rendered body parses to exactly the
direct-substitution payload. The `$`-freedom is necessary: the
replacement string of `String.prototype.replace` undergoes
`GetSubstitution`, so `$$`, `$&`, backtick- and quote-`$` sequences in
the prompt corrupt the rendered body (see the counterexample). -/
theorem c8_template_rendering :
    buildRequestBody wTemplateCfg wTemplateReq "custom-model-1" =
      Except.ok wDirectPayload ∧
    (∀ (cfg : ProviderConfig) (req : GenerateRequest) (modelId : String)
        (mc : ModelConfig) (t : String),
      cfg.models.find? (fun m => m.id == modelId) = some mc →
      mc.requestBodyTemplate = some t → t.isEmpty = false →
      buildRequestBody cfg req modelId = renderTemplate t req modelId) ∧
    (∀ (cfg : ProviderConfig) (req : GenerateRequest) (modelId : String),
      truthyOpt ((cfg.models.find? (fun m => m.id == modelId)).bind
        (fun m => m.requestBodyTemplate)) = false →
      truthyOpt cfg.requestBodyTemplate = false →
      buildRequestBody cfg req modelId = Except.ok (defaultRequestPayload req modelId)) ∧
    (∀ (P : String), (∀ c ∈ P.data, plainChar c = true ∧ ¬ (c = '$')) →
      buildRequestBody wTemplateCfg { type := CType.text, prompt := P } "custom-model-1" =
        Except.ok (JValue.arr [JValue.obj [("role", JValue.str "user"),
          ("content", JValue.str P), ("model", JValue.str "custom-model-1")]])) := by
  refine ⟨rfl, ?_, ?_, ?_⟩
  · intro cfg req modelId mc t hfind hmc ht
    simp [buildRequestBody, hfind, hmc, orFalsy, ht]
  · intro cfg req modelId hmt hpt
    cases hmtv : (cfg.models.find? (fun m => m.id == modelId)).bind
        (fun m => m.requestBodyTemplate) with
    | none =>
      cases hptv : cfg.requestBodyTemplate with
      | none => simp [buildRequestBody, hmtv, hptv, orFalsy]
      | some s =>
        have hs : s.isEmpty = true := by
          rw [hptv] at hpt
          simpa [truthyOpt] using hpt
        simp [buildRequestBody, hmtv, hptv, orFalsy, hs]
    | some s =>
      have hs : s.isEmpty = true := by
        rw [hmtv] at hmt
        simpa [truthyOpt] using hmt
      cases hptv : cfg.requestBodyTemplate with
      | none => simp [buildRequestBody, hmtv, hptv, orFalsy, hs]
      | some s2 =>
        have hs2 : s2.isEmpty = true := by
          rw [hptv] at hpt
          simpa [truthyOpt] using hpt
        simp [buildRequestBody, hmtv, hptv, orFalsy, hs, hs2]
  · intro P hP
    have hne : wTemplate.isEmpty = false := rfl
    have hrt := renderTemplate_plain P hP { type := CType.text, prompt := P } rfl
    simp [buildRequestBody, wTemplateCfg, orFalsy, truthyOpt, hne, hrt]

/-- A model carrying its own template, for the precedence witness. -/
def wOverrideModel : ModelConfig :=
  { id := "m1", type := CType.text, cost := 1, quality := Quality.low,
    requestBodyTemplate := some "\x7b\"p\": \"\x7b\x7bprompt\x7d\x7d\"\x7d" }

/-- C8 witness: the precedence conjunct at a provider whose model
overrides the provider-level template, the default-shape conjunct at a
template-free provider, and the plain-prompt conjunct at the concrete
prompt "A test prompt". -/
theorem c8_template_rendering_witness :
    buildRequestBody
      { name := "custom", apiKey := "", requestBodyTemplate := some wTemplate,
        models := [wOverrideModel] } wTemplateReq "m1" =
      renderTemplate "\x7b\"p\": \"\x7b\x7bprompt\x7d\x7d\"\x7d" wTemplateReq "m1" ∧
    buildRequestBody wCustomCfg wTemplateReq "m1" =
      Except.ok (defaultRequestPayload wTemplateReq "m1") ∧
    buildRequestBody wTemplateCfg { type := CType.text, prompt := "A test prompt" }
      "custom-model-1" =
      Except.ok (JValue.arr [JValue.obj [("role", JValue.str "user"),
        ("content", JValue.str "A test prompt"),
        ("model", JValue.str "custom-model-1")]]) :=
  ⟨c8_template_rendering.2.1
      { name := "custom", apiKey := "", requestBodyTemplate := some wTemplate,
        models := [wOverrideModel] } wTemplateReq "m1" wOverrideModel
      "\x7b\"p\": \"\x7b\x7bprompt\x7d\x7d\"\x7d" rfl rfl rfl,
   c8_template_rendering.2.2.1 wCustomCfg wTemplateReq "m1" rfl rfl,
   c8_template_rendering.2.2.2 "A test prompt" (by decide)⟩

/-- An empty catalog, used by witnesses. -/
def wEmptyCfg : OrchestratorConfig := { providers := [] }

/-- C1: `generate` follows the fallback algorithm — an empty candidate
list returns the "no suitable provider" failure with no adapter invoked;
otherwise candidates are tried in order, candidates without a registered
adapter are skipped, the first completed result is returned immediately
(later candidates never invoked, registry untouched), a raising adapter
call counts as a failed attempt, and when every candidate fails the
aggregate "all configured providers failed" failure is returned with the
adapter of each eligible candidate invoked exactly once, in order. -/
theorem c1_generate_fallback (hash : String → String) (cfg : OrchestratorConfig)
    (adapters : AdapterMap) (request : GenerateRequest) (jobs : JobMap) :
    (getSortedProviders cfg request = [] →
      generate hash cfg adapters request jobs = ⟨noSuitableResult, jobs, []⟩) ∧
    (∀ (pre : List Candidate) (c : Candidate) (post : List Candidate) (ad : Adapter)
        (r : GenerateResult),
      getSortedProviders cfg request = pre ++ c :: post →
      (∀ c' ∈ pre, candidateFails adapters request c') →
      mapGet adapters c.provider.name = some ad →
      ad.generate request c.model.id = Except.ok r →
      r.status = Status.completed →
      generate hash cfg adapters request jobs =
        ⟨r, jobs, callsOf adapters pre ++ [(c.provider.name, c.model.id)]⟩) ∧
    ((∀ c ∈ getSortedProviders cfg request, candidateFails adapters request c) →
      getSortedProviders cfg request ≠ [] →
      generate hash cfg adapters request jobs =
        ⟨allFailedResult, jobs, callsOf adapters (getSortedProviders cfg request)⟩) := by
  refine ⟨?_, ?_, ?_⟩
  · intro h
    simp [generate, h]
  · intro pre c post ad r hsorted hpre hm hg hr
    have hgen : generate hash cfg adapters request jobs =
        generateGo hash adapters request (pre ++ c :: post) jobs := by
      have hne : (pre ++ c :: post).isEmpty = false := by cases pre <;> rfl
      simp [generate, hsorted, hne]
    rw [hgen, generateGo_append_fail hash adapters request pre (c :: post) jobs hpre]
    have hstep : generateGo hash adapters request (c :: post) jobs =
        ⟨r, jobs, [(c.provider.name, c.model.id)]⟩ := by
      simp [generateGo, hm, hg, hr]
    rw [hstep]
  · intro hall hne
    have hgen : generate hash cfg adapters request jobs =
        generateGo hash adapters request (getSortedProviders cfg request) jobs := by
      have hemp : (getSortedProviders cfg request).isEmpty = false := by
        cases h : getSortedProviders cfg request with
        | nil => exact absurd h hne
        | cons a l => rfl
      simp [generate, hemp]
    rw [hgen, generateGo_all_fail hash adapters request _ jobs hall]

/-- C1 witness: the empty-candidate conjunct at an empty catalog. -/
theorem c1_generate_fallback_witness :
    generate id wEmptyCfg [] wReq [] = ⟨noSuitableResult, [], []⟩ :=
  (c1_generate_fallback id wEmptyCfg [] wReq []).1 rfl

/-- C9: a pending result carrying no (truthy) provider-native job id is
not returned and registers nothing — the candidate is treated exactly
like a failed one and iteration continues with the next candidate
(the continuation runs on the unchanged registry). -/
theorem c9_pending_without_id (hash : String → String) (cfg : OrchestratorConfig)
    (adapters : AdapterMap) (request : GenerateRequest) (jobs : JobMap) :
    ∀ (pre : List Candidate) (c : Candidate) (post : List Candidate) (ad : Adapter)
        (r : GenerateResult),
      getSortedProviders cfg request = pre ++ c :: post →
      (∀ c' ∈ pre, candidateFails adapters request c') →
      mapGet adapters c.provider.name = some ad →
      ad.generate request c.model.id = Except.ok r →
      r.status = Status.pending →
      truthyOpt r.orchestratorJobId = false →
      generate hash cfg adapters request jobs =
        ⟨(generateGo hash adapters request post jobs).result,
         (generateGo hash adapters request post jobs).jobs,
         callsOf adapters pre ++ (c.provider.name, c.model.id) ::
           (generateGo hash adapters request post jobs).calls⟩ := by
  intro pre c post ad r hsorted hpre hm hg hr htruthy
  have hgen : generate hash cfg adapters request jobs =
      generateGo hash adapters request (pre ++ c :: post) jobs := by
    have hne : (pre ++ c :: post).isEmpty = false := by cases pre <;> rfl
    simp [generate, hsorted, hne]
  rw [hgen, generateGo_append_fail hash adapters request pre (c :: post) jobs hpre]
  have hstep : generateGo hash adapters request (c :: post) jobs =
      ⟨(generateGo hash adapters request post jobs).result,
       (generateGo hash adapters request post jobs).jobs,
       (c.provider.name, c.model.id) ::
         (generateGo hash adapters request post jobs).calls⟩ := by
    simp [generateGo, hm, hg, hr, htruthy]
  rw [hstep]

/-- An adapter that always reports a pending job with no job id, for the
C9 witness. -/
def wPendingNoIdAdapter : Adapter :=
  { generate := fun _ _ => Except.ok
      { status := Status.pending, provider := "openai", model := "A" } }

def wSingleModel : ModelConfig :=
  { id := "A", type := CType.text, cost := 1, quality := Quality.low }

def wSingleProvider : ProviderConfig :=
  { name := "openai", apiKey := "k", models := [wSingleModel] }

def wSingleCfg : OrchestratorConfig := { providers := [wSingleProvider] }

/-- The pending-without-id result the C9 witness adapter returns. -/
def wPendingNoIdResult : GenerateResult :=
  { status := Status.pending, provider := "openai", model := "A" }

/-- C9 witness: a single-candidate catalog whose adapter returns pending
without an id falls through to the aggregate failure and registers
nothing. -/
theorem c9_pending_without_id_witness :
    generate id wSingleCfg [("openai", wPendingNoIdAdapter)] wReq [] =
      ⟨allFailedResult, [], [("openai", "A")]⟩ := by
  have h := c9_pending_without_id id wSingleCfg [("openai", wPendingNoIdAdapter)]
    wReq [] [] ⟨wSingleProvider, wSingleModel⟩ [] wPendingNoIdAdapter
    wPendingNoIdResult rfl (by intro c' hc'; simp at hc') rfl rfl rfl rfl
  rw [h]
  rfl

/-- C2: the job lifecycle over the active-jobs registry — a pending
result with a (truthy) provider-native id registers exactly one fresh
entry (keyed by the derived orchestrator id, mapping to the provider name
and the native id) and is returned immediately with the orchestrator id
in place of the native one; polling an unknown id fails with "job not
found"; polling a known id whose adapter lacks `checkJobStatus` (or has
no adapter at all) fails with the capability-missing error and leaves the
entry in place; a delegated check that returns completed or failed
deletes the entry, so a subsequent poll of the same id is job-not-found;
a pending check leaves the registry unchanged. -/
theorem c2_job_lifecycle :
    (∀ (hash : String → String) (cfg : OrchestratorConfig) (adapters : AdapterMap)
        (request : GenerateRequest) (jobs : JobMap) (pre : List Candidate)
        (c : Candidate) (post : List Candidate) (ad : Adapter)
        (r : GenerateResult) (pj : String),
      getSortedProviders cfg request = pre ++ c :: post →
      (∀ c' ∈ pre, candidateFails adapters request c') →
      mapGet adapters c.provider.name = some ad →
      ad.generate request c.model.id = Except.ok r →
      r.status = Status.pending →
      r.orchestratorJobId = some pj → pj ≠ "" →
      mapGet jobs (createOrchestratorJobId hash c.provider.name pj) = none →
      generate hash cfg adapters request jobs =
        ⟨{ r with
            orchestratorJobId := some (createOrchestratorJobId hash c.provider.name pj) },
         jobs ++ [(createOrchestratorJobId hash c.provider.name pj,
           (ActiveJob.mk c.provider.name pj))],
         callsOf adapters pre ++ [(c.provider.name, c.model.id)]⟩ ∧
      mapGet (jobs ++ [(createOrchestratorJobId hash c.provider.name pj,
          (ActiveJob.mk c.provider.name pj))])
        (createOrchestratorJobId hash c.provider.name pj) =
        some (ActiveJob.mk c.provider.name pj) ∧
      (jobs ++ [(createOrchestratorJobId hash c.provider.name pj,
        (ActiveJob.mk c.provider.name pj))]).length = jobs.length + 1) ∧
    (∀ (adapters : AdapterMap) (jobs : JobMap) (oid : String),
      mapGet jobs oid = none →
      getJobResult adapters jobs oid = Except.ok (jobNotFoundResult, jobs)) ∧
    (∀ (adapters : AdapterMap) (jobs : JobMap) (oid : String) (job : ActiveJob),
      mapGet jobs oid = some job →
      (mapGet adapters job.providerName = none ∨
        ∃ ad, mapGet adapters job.providerName = some ad ∧ ad.checkJobStatus = none) →
      getJobResult adapters jobs oid = Except.ok (capMissingResult job.providerName, jobs)) ∧
    (∀ (adapters : AdapterMap) (jobs : JobMap) (oid : String) (job : ActiveJob)
        (ad : Adapter) (check : String → Except String JobStatusResult)
        (res : JobStatusResult),
      mapGet jobs oid = some job →
      mapGet adapters job.providerName = some ad →
      ad.checkJobStatus = some check →
      check job.providerJobId = Except.ok res →
      (res.status = Status.completed ∨ res.status = Status.failed) →
      getJobResult adapters jobs oid = Except.ok (res, mapDelete jobs oid) ∧
      mapGet (mapDelete jobs oid) oid = none ∧
      getJobResult adapters (mapDelete jobs oid) oid =
        Except.ok (jobNotFoundResult, mapDelete jobs oid)) ∧
    (∀ (adapters : AdapterMap) (jobs : JobMap) (oid : String) (job : ActiveJob)
        (ad : Adapter) (check : String → Except String JobStatusResult)
        (res : JobStatusResult),
      mapGet jobs oid = some job →
      mapGet adapters job.providerName = some ad →
      ad.checkJobStatus = some check →
      check job.providerJobId = Except.ok res →
      res.status = Status.pending →
      getJobResult adapters jobs oid = Except.ok (res, jobs)) := by
  refine ⟨?_, ?_, ?_, ?_, ?_⟩
  · intro hash cfg adapters request jobs pre c post ad r pj
      hsorted hpre hm hg hr hid hne hfresh
    have hempty : pj.isEmpty = false := by
      cases h : pj.isEmpty with
      | false => rfl
      | true => exact absurd ((String.isEmpty_iff pj).mp h) hne
    have htruthy : truthyOpt r.orchestratorJobId = true := by
      rw [hid]
      simp [truthyOpt, hempty]
    have hgetd : r.orchestratorJobId.getD "" = pj := by rw [hid]; rfl
    have hgen : generate hash cfg adapters request jobs =
        generateGo hash adapters request (pre ++ c :: post) jobs := by
      have hnil : (pre ++ c :: post).isEmpty = false := by cases pre <;> rfl
      simp [generate, hsorted, hnil]
    refine ⟨?_, mapGet_append_single _ hfresh, by simp⟩
    rw [hgen, generateGo_append_fail hash adapters request pre (c :: post) jobs hpre]
    have hstep : generateGo hash adapters request (c :: post) jobs =
        ⟨{ r with
            orchestratorJobId := some (createOrchestratorJobId hash c.provider.name pj) },
         mapSet jobs (createOrchestratorJobId hash c.provider.name pj)
           (ActiveJob.mk c.provider.name pj),
         [(c.provider.name, c.model.id)]⟩ := by
      simp [generateGo, hm, hg, hr, htruthy, hgetd]
    rw [hstep, mapSet_of_get_none _ hfresh]
  · intro adapters jobs oid h
    simp [getJobResult, h]
  · intro adapters jobs oid job hjob hcap
    rcases hcap with h | ⟨ad, had, hchk⟩
    · simp [getJobResult, hjob, h]
    · simp [getJobResult, hjob, had, hchk]
  · intro adapters jobs oid job ad check res hjob had hchk hres hterm
    refine ⟨by simp [getJobResult, hjob, had, hchk, hres, hterm],
      mapGet_mapDelete_self jobs oid, ?_⟩
    simp [getJobResult, mapGet_mapDelete_self jobs oid]
  · intro adapters jobs oid job ad check res hjob had hchk hres hpend
    have hterm : ¬ (res.status = Status.completed ∨ res.status = Status.failed) := by
      rw [hpend]
      rintro (h | h) <;> exact Status.noConfusion h
    simp [getJobResult, hjob, had, hchk, hres, hterm]

/-- The adapter of the C2 witness: pending with native id "pj-1". -/
def wPendingAdapter : Adapter :=
  { generate := fun _ _ => Except.ok
      { status := Status.pending, provider := "openai", model := "A",
        orchestratorJobId := some "pj-1" },
    checkJobStatus := some (fun _ => Except.ok { status := Status.pending }) }

/-- C2 witness: the pending-registration conjunct at a concrete
single-candidate catalog and the pending-poll conjunct on the resulting
registry entry. -/
theorem c2_job_lifecycle_witness :
    generate id wSingleCfg [("openai", wPendingAdapter)] wReq [] =
      ⟨{ status := Status.pending, provider := "openai", model := "A",
         orchestratorJobId := some "openai-pj-1" },
       [("openai-pj-1", ⟨"openai", "pj-1"⟩)], [("openai", "A")]⟩ ∧
    getJobResult [("openai", wPendingAdapter)] [("openai-pj-1", ⟨"openai", "pj-1"⟩)]
      "openai-pj-1" =
      Except.ok ({ status := Status.pending }, [("openai-pj-1", ⟨"openai", "pj-1"⟩)]) := by
  constructor
  · have h := (c2_job_lifecycle.1 id wSingleCfg [("openai", wPendingAdapter)] wReq []
      [] ⟨wSingleProvider, wSingleModel⟩ [] wPendingAdapter
      { status := Status.pending, provider := "openai", model := "A",
        orchestratorJobId := some "pj-1" } "pj-1"
      rfl (by intro c' hc'; simp at hc') rfl rfl rfl rfl (by decide) rfl).1
    rw [h]
    rfl
  · exact c2_job_lifecycle.2.2.2.2 [("openai", wPendingAdapter)]
      [("openai-pj-1", ⟨"openai", "pj-1"⟩)] "openai-pj-1" ⟨"openai", "pj-1"⟩
      wPendingAdapter (fun _ => Except.ok { status := Status.pending })
      { status := Status.pending } rfl rfl rfl rfl rfl

/-- An adapter whose status check raises, for the C4 counterexample. -/
def wThrowingAdapter : Adapter :=
  { generate := fun _ _ => Except.ok { status := Status.failed },
    checkJobStatus := some (fun _ => Except.error "boom") }

/-- C4 counterexample: an adapter whose `checkJobStatus` raises makes
`getJobResult` propagate the exception (the delegated call at
`src/index.ts:101` is not wrapped in `try`/`catch`), so the claim fails
as stated for `getJobResult`. -/
theorem c4_counterexample :
    getJobResult [("custom", wThrowingAdapter)]
      [("j1", ActiveJob.mk "custom" "pj")] "j1" = Except.error "boom" := rfl

/-- C4 amended: `generate` never propagates an exception for any adapter
behaviour (the explicit-exception run always returns `Except.ok` of the
caught-semantics run); `getJobResult` returns a structured result for
every adapter behaviour whose `checkJobStatus` returns structured results
rather than raising — but an exception raised by `checkJobStatus` itself
propagates to the caller (see the counterexample). -/
theorem c4_no_unhandled_fault :
    (∀ (hash : String → String) (cfg : OrchestratorConfig) (adapters : AdapterMap)
        (request : GenerateRequest) (jobs : JobMap),
      generateE hash cfg adapters request jobs =
        Except.ok (generate hash cfg adapters request jobs)) ∧
    (∀ (adapters : AdapterMap) (jobs : JobMap) (oid : String),
      (∀ (name : String) (ad : Adapter) (f : String → Except String JobStatusResult),
        mapGet adapters name = some ad → ad.checkJobStatus = some f →
        ∀ j, ∃ res, f j = Except.ok res) →
      ∃ out, getJobResult adapters jobs oid = Except.ok out) := by
  constructor
  · intro hash cfg adapters request jobs
    by_cases h : (getSortedProviders cfg request).isEmpty = true
    · simp [generateE, generate, h]
    · simp only [Bool.not_eq_true] at h
      simp [generateE, generate, h, generateGoE_eq_ok]
  · intro adapters jobs oid hok
    cases hj : mapGet jobs oid with
    | none => exact ⟨(jobNotFoundResult, jobs), by simp [getJobResult, hj]⟩
    | some job =>
      cases ha : mapGet adapters job.providerName with
      | none => exact ⟨(capMissingResult job.providerName, jobs),
          by simp [getJobResult, hj, ha]⟩
      | some ad =>
        cases hc : ad.checkJobStatus with
        | none => exact ⟨(capMissingResult job.providerName, jobs),
            by simp [getJobResult, hj, ha, hc]⟩
        | some f =>
          rcases hok job.providerName ad f ha hc job.providerJobId with ⟨res, hres⟩
          by_cases hterm : res.status = Status.completed ∨ res.status = Status.failed
          · exact ⟨(res, mapDelete jobs oid),
              by simp [getJobResult, hj, ha, hc, hres, hterm]⟩
          · exact ⟨(res, jobs), by simp [getJobResult, hj, ha, hc, hres, hterm]⟩

/-- C4 witness: the amended theorem at concrete inputs (the
`getJobResult` hypothesis holds vacuously for an empty adapter map). -/
theorem c4_no_unhandled_fault_witness :
    generateE id wSingleCfg [("openai", wPendingNoIdAdapter)] wReq [] =
      Except.ok (generate id wSingleCfg [("openai", wPendingNoIdAdapter)] wReq []) ∧
    ∃ out, getJobResult [] [] "x" = Except.ok out :=
  ⟨c4_no_unhandled_fault.1 id wSingleCfg [("openai", wPendingNoIdAdapter)] wReq [],
   c4_no_unhandled_fault.2 [] [] "x"
     (by intro name ad f hm; simp [mapGet] at hm)⟩

theorem initStep_keys (mkO mkG : String → Adapter) (mkC : ProviderConfig → Adapter)
    (m : AdapterMap) (p : ProviderConfig) (k : String)
    (h : (mapGet (initStep mkO mkG mkC m p) k).isSome = true) :
    k = "openai" ∨ k = "google" ∨ k = "custom" ∨ (mapGet m k).isSome = true := by
  unfold initStep at h
  split at h
  · rcases mapGet_mapSet_isSome h with hk | hm
    · exact Or.inl hk
    · exact Or.inr (Or.inr (Or.inr hm))
  · rcases mapGet_mapSet_isSome h with hk | hm
    · exact Or.inr (Or.inl hk)
    · exact Or.inr (Or.inr (Or.inr hm))
  · split at h
    · rcases mapGet_mapSet_isSome h with hk | hm
      · exact Or.inr (Or.inr (Or.inl hk))
      · exact Or.inr (Or.inr (Or.inr hm))
    · exact Or.inr (Or.inr (Or.inr h))
  · exact Or.inr (Or.inr (Or.inr h))

theorem initFold_keys (mkO mkG : String → Adapter) (mkC : ProviderConfig → Adapter)
    (providers : List ProviderConfig) :
    ∀ (m : AdapterMap) (k : String),
      (mapGet (providers.foldl (initStep mkO mkG mkC) m) k).isSome = true →
      k = "openai" ∨ k = "google" ∨ k = "custom" ∨ (mapGet m k).isSome = true := by
  induction providers with
  | nil => intro m k h; exact Or.inr (Or.inr (Or.inr h))
  | cons p rest ih =>
    intro m k h
    rcases ih (initStep mkO mkG mkC m p) k h with hk | hk | hk | hm
    · exact Or.inl hk
    · exact Or.inr (Or.inl hk)
    · exact Or.inr (Or.inr (Or.inl hk))
    · exact initStep_keys mkO mkG mkC m p k hm

theorem initializeAdapters_keys (mkO mkG : String → Adapter)
    (mkC : ProviderConfig → Adapter) (providers : List ProviderConfig) (k : String)
    (h : (mapGet (initializeAdapters mkO mkG mkC providers) k).isSome = true) :
    k = "openai" ∨ k = "google" ∨ k = "custom" := by
  rcases initFold_keys mkO mkG mkC providers [] k h with hk | hk | hk | hm
  · exact Or.inl hk
  · exact Or.inr (Or.inl hk)
  · exact Or.inr (Or.inr hk)
  · simp [mapGet] at hm

/-- C10: the adapter map is keyed only by the fixed lowercase names
`openai`, `google`, `custom` (matched against the lowercased configured
name), while `generate` and `getJobResult` look the adapter up by the
configured name verbatim — so a provider whose configured name is not
exactly one of those keys never has its adapter invoked during
`generate`, and a registry entry under such a provider always polls to
the capability-missing failure with the entry left in place (it can
never be resolved). -/
theorem c10_adapter_lookup :
    (∀ (mkO mkG : String → Adapter) (mkC : ProviderConfig → Adapter)
        (providers : List ProviderConfig) (k : String),
      (mapGet (initializeAdapters mkO mkG mkC providers) k).isSome = true →
      k = "openai" ∨ k = "google" ∨ k = "custom") ∧
    (∀ (mkO mkG : String → Adapter) (mkC : ProviderConfig → Adapter)
        (providers : List ProviderConfig) (hash : String → String)
        (cfg : OrchestratorConfig) (request : GenerateRequest) (jobs : JobMap)
        (name modelId : String),
      name ≠ "openai" → name ≠ "google" → name ≠ "custom" →
      (name, modelId) ∉
        (generate hash cfg (initializeAdapters mkO mkG mkC providers) request jobs).calls) ∧
    (∀ (mkO mkG : String → Adapter) (mkC : ProviderConfig → Adapter)
        (providers : List ProviderConfig) (jobs : JobMap) (oid : String)
        (job : ActiveJob),
      mapGet jobs oid = some job →
      job.providerName ≠ "openai" → job.providerName ≠ "google" →
      job.providerName ≠ "custom" →
      getJobResult (initializeAdapters mkO mkG mkC providers) jobs oid =
        Except.ok (capMissingResult job.providerName, jobs)) := by
  refine ⟨initializeAdapters_keys, ?_, ?_⟩
  · intro mkO mkG mkC providers hash cfg request jobs name modelId h1 h2 h3 hmem
    by_cases hemp : (getSortedProviders cfg request).isEmpty = true
    · rw [show (generate hash cfg (initializeAdapters mkO mkG mkC providers)
          request jobs).calls = [] by simp [generate, hemp]] at hmem
      simp at hmem
    · simp only [Bool.not_eq_true] at hemp
      rw [show generate hash cfg (initializeAdapters mkO mkG mkC providers) request jobs =
          generateGo hash (initializeAdapters mkO mkG mkC providers) request
            (getSortedProviders cfg request) jobs by simp [generate, hemp]] at hmem
      have hsome := generateGo_calls_have_adapters hash
        (initializeAdapters mkO mkG mkC providers) request
        (getSortedProviders cfg request) jobs name modelId hmem
      rcases initializeAdapters_keys mkO mkG mkC providers name hsome with h | h | h
      · exact h1 h
      · exact h2 h
      · exact h3 h
  · intro mkO mkG mkC providers jobs oid job hjob h1 h2 h3
    have hnone : mapGet (initializeAdapters mkO mkG mkC providers) job.providerName = none := by
      cases hm : mapGet (initializeAdapters mkO mkG mkC providers) job.providerName with
      | none => rfl
      | some ad =>
        have : (mapGet (initializeAdapters mkO mkG mkC providers)
            job.providerName).isSome = true := by rw [hm]; rfl
        rcases initializeAdapters_keys mkO mkG mkC providers job.providerName this
          with h | h | h
        · exact absurd h h1
        · exact absurd h h2
        · exact absurd h h3
    simp [getJobResult, hjob, hnone]

/-- C10 witness: a registry entry under the verbatim name "OpenAI"
(registered keys are lowercase) polls to the capability-missing failure
with the registry unchanged. -/
theorem c10_adapter_lookup_witness :
    getJobResult (initializeAdapters (fun _ => wPendingNoIdAdapter)
        (fun _ => wPendingNoIdAdapter) (fun _ => wPendingNoIdAdapter) [])
      [("j1", ActiveJob.mk "OpenAI" "pj")] "j1" =
      Except.ok (capMissingResult "OpenAI", [("j1", ActiveJob.mk "OpenAI" "pj")]) :=
  c10_adapter_lookup.2.2 (fun _ => wPendingNoIdAdapter) (fun _ => wPendingNoIdAdapter)
    (fun _ => wPendingNoIdAdapter) [] [("j1", ActiveJob.mk "OpenAI" "pj")] "j1"
    (ActiveJob.mk "OpenAI" "pj") rfl (by decide) (by decide) (by decide)

end AIOrch
